import Mathlib

/-!
Verification development for the markdown parsing engine
(src/parsing/parser.rs of Trivernis/markdown-rs).

The parser is embedded shallowly: the `Parser` struct becomes a Lean
structure, every grammar production becomes a total function
`Nat → Parser → Except ParseError α × Parser` where the first argument is
recursion fuel (the Rust loops always terminate on real input because the
cursor advances; fuel makes the embedding total and keeps every definition
executable by kernel reduction).  Machine integers (usize indices, u8
nesting levels, u16 list levels) are modelled as `Nat`; they never reach
their overflow bounds in any statement below.  i64 metadata values are
`Int` with explicit i64 range checks, f64 values are modelled exactly as
rationals for decimal literals.

The character-cursor substrate (charstate.rs), the token constants
(tokens.rs), the element structs (elements.rs), the inline-span grammar
(inline.rs) and the placeholder-resolution pass (placeholders.rs) are code
of this repository that is not under src/; their definitions below are
modelled from the specification (sections 3, 4.1 and 6 of spec.md) and are
marked `Modelled from the spec:` in their doc comments.  Everything else is
a direct translation of src/parsing/parser.rs.
-/

namespace MD

/-! ## Token lexicon

Modelled from the spec: tokens.rs is not under src/.  The bracket/marker
lexicon follows section 6 of the spec (metadata open/close braces as in the
section 8 examples, placeholder double brackets, import start+open and
close markers, pipe cell separators, dash/pipe separator lines, repeated
back-quote code fences, hash section markers, greater-than quote
markers). -/

def LB : Char := '\n'
def SPACE : Char := ' '
def HASH : Char := '#'
def MINUS : Char := '-'
def PLUS : Char := '+'
def PIPE : Char := '|'
def DOT : Char := '.'
def EQ : Char := '='
def QUOTE_START : Char := '>'
def META_OPEN : Char := Char.ofNat 123
def META_CLOSE : Char := Char.ofNat 125
def IMPORT_START : Char := '<'
def IMPORT_OPEN : Char := '['
def IMPORT_CLOSE : Char := ']'
def BACKTICK : Char := Char.ofNat 96
def DOUBLE_QUOTE : Char := Char.ofNat 34
def SINGLE_QUOTE : Char := Char.ofNat 39
def QUOTES : List Char := [DOUBLE_QUOTE, SINGLE_QUOTE]
def SQ_CODE_BLOCK : List Char := [BACKTICK, BACKTICK, BACKTICK]
def SQ_PHOLDER_START : List Char := ['[', '[']
def SQ_PHOLDER_STOP : List Char := [']', ']']
def SQ_CENTERED_START : List Char := ['|', '|']
def SQ_RULER : List Char := ['-', '-', '-']
def LIST_SPECIAL_CHARS : List Char :=
  ['-', '*', '0', '1', '2', '3', '4', '5', '6', '7', '8', '9']
def BLOCK_SPECIAL_CHARS : List (List Char) :=
  [[HASH], SQ_CODE_BLOCK, [QUOTE_START], [PIPE],
   [IMPORT_START, IMPORT_OPEN], SQ_PHOLDER_START, SQ_CENTERED_START,
   [MINUS, SPACE], SQ_RULER]

/-! ## Errors (parser.rs lines 28-91) -/

/-- ParseError: a cursor index plus an optional message
(parser.rs lines 28-32). -/
structure ParseError where
  index : Nat
  message : Option String
deriving DecidableEq, Repr

/-! ## Data model (spec section 3; elements.rs is not under src/)

Modelled from the spec: elements.rs is not under src/.  The shapes follow
spec section 3 exactly; an inline element is modelled as the plain list of
characters of its span, because the inline-span grammar is explicitly out
of scope (spec sections 1 and 6).  Strings are lists of characters
throughout the data model so that the round-trip theorems can recurse over
them. -/

/-- A text line: the ordered inline spans accumulated by parse_text_line. -/
structure TextLine where
  subtext : List (List Char)
deriving DecidableEq, Repr

/-- A line of a paragraph, header, or list item: ruler, centered text, or
plain text (parse_line alternation, parser.rs lines 708-723). -/
inductive Line where
  | text (t : TextLine)
  | ruler
  | centered (t : TextLine)
deriving DecidableEq, Repr

/-! Metadata values, placeholders and the typed key/value mapping
(spec section 3: InlineMetadata / Placeholder).  A float is represented
exactly as a rational. -/
mutual
inductive MetadataValue where
  | bool (b : Bool)
  | integer (i : Int)
  | float (q : Rat)
  | str (cs : List Char)
  | placeholder (p : Placeholder)

inductive Placeholder where
  | mk (name : List Char) (metadata : Option InlineMetadata)

inductive InlineMetadata where
  | mk (data : List KV)

inductive KV where
  | mk (key : List Char) (value : MetadataValue)
end

def InlineMetadata.data : InlineMetadata → List KV
  | .mk d => d

/-- HashMap.insert modelled on an association list: replace the value of an
existing key in place, otherwise append (last write wins, spec section 3). -/
def insertKV : List KV → List Char → MetadataValue → List KV
  | [], k, v => [KV.mk k v]
  | KV.mk k' v' :: rest, k, v =>
    if k' = k then KV.mk k v :: rest else KV.mk k' v' :: insertKV rest k v

/-- A table cell (one line of inline content). -/
structure Cell where
  text : Line
deriving DecidableEq, Repr

/-- A table row: an ordered sequence of cells. -/
structure Row where
  cells : List Cell
deriving DecidableEq, Repr

def Row.add_cell (r : Row) (c : Cell) : Row :=
  Row.mk (r.cells ++ [c])

/-- A table: a header row plus data rows. -/
structure Table where
  header : Row
  rows : List Row
deriving DecidableEq, Repr

def Table.add_row (t : Table) (r : Row) : Table :=
  Table.mk t.header (t.rows ++ [r])

/-- A code block: language tag and verbatim code. -/
structure CodeBlock where
  language : List Char
  code : List Char
deriving DecidableEq, Repr

/-- A quote: optional metadata plus the quoted text lines. -/
structure Quote where
  metadata : Option InlineMetadata
  text : List TextLine

def Quote.add_text (q : Quote) (t : TextLine) : Quote :=
  Quote.mk q.metadata (q.text ++ [t])

/-- A section header: marker count (size), the parsed line, and the
whitespace-stripped anchor. -/
structure Header where
  size : Nat
  line : Line
  anchor : List Char
deriving DecidableEq, Repr

/-- A list item: content line, indentation level, ordered flag, children. -/
inductive ListItem where
  | mk (line : Line) (level : Nat) (ordered : Bool) (children : List ListItem)

def ListItem.level : ListItem → Nat
  | .mk _ lv _ _ => lv

/-- ListItem.add_child appends a child item. -/
def add_child : ListItem → ListItem → ListItem
  | .mk l lv o cs, child => .mk l lv o (cs ++ [child])

/-- A list block: ordered flag plus the forest of root items. -/
structure ListBlock where
  ordered : Bool
  items : List ListItem

/-- A paragraph: consecutive lines. -/
structure Paragraph where
  elements : List Line
deriving DecidableEq, Repr

def Paragraph.add_element (p : Paragraph) (l : Line) : Paragraph :=
  Paragraph.mk (p.elements ++ [l])

/-! Blocks, sections, imports, anchors and documents are mutually recursive:
a section holds child blocks, an import anchor may hold a whole child
document. -/
mutual
inductive Block where
  | sec (s : Sect)
  | listB (l : ListBlock)
  | table (t : Table)
  | codeBlock (c : CodeBlock)
  | quote (q : Quote)
  | imp (i : Import)
  | placeholder (p : Placeholder)
  | paragraph (p : Paragraph)

inductive Sect where
  | mk (header : Header) (metadata : Option InlineMetadata) (elements : List Block)

inductive Import where
  | mk (path : List Char) (anchor : ImportAnchor)

inductive ImportAnchor where
  | mk (document : Option Document)

inductive Document where
  | mk (path : Option (List Char)) (is_root : Bool) (elements : List Block)
       (placeholders : List Placeholder)
end

def Sect.add_element : Sect → Block → Sect
  | .mk h m es, b => .mk h m (es ++ [b])

def Document.path : Document → Option (List Char)
  | .mk p _ _ _ => p

def Document.is_root : Document → Bool
  | .mk _ r _ _ => r

def Document.elements : Document → List Block
  | .mk _ _ es _ => es

def Document.placeholders : Document → List Placeholder
  | .mk _ _ _ ps => ps

def Document.new (is_root : Bool) : Document :=
  .mk none is_root [] []

def Document.add_element : Document → Block → Document
  | .mk p r es ps, b => .mk p r (es ++ [b]) ps

def Document.add_placeholder : Document → Placeholder → Document
  | .mk p r es ps, ph => .mk p r es (ps ++ [ph])

def Document.set_path : Document → Option (List Char) → Document
  | .mk _ r es ps, p => .mk p r es ps

/-! ## Parser state (parser.rs lines 93-152) -/

/-- The parser state (parser.rs lines 93-106).  `fs` models the file
system visible to the import subsystem as the set of paths of existing
regular files; it replaces the `Path::exists`/`Path::is_file` queries of
the Rust code (Modelled from the spec, section 4.4: file access is an
external interface).  The crossbeam WaitGroup `wg` of the Rust struct is a
pure join-synchronisation handle with no sequential semantics and is not
represented. -/
structure Parser where
  index : Nat
  text : List Char
  currentChar : Char
  section_nesting : Nat
  sections : List Nat
  section_return : Option Nat
  path : Option (List Char)
  paths : List (List Char)
  is_child : Bool
  inline_break_at : List Char
  document : Document
  fs : List (List Char)

/-- Parser::create (parser.rs lines 122-152): append the sentinel
characters newline/space/newline, set the cursor to the first character,
and register the parser's own path in the shared path registry. -/
def Parser.create (input : List Char) (path : Option (List Char))
    (paths : List (List Char)) (is_child : Bool) (fs : List (List Char)) :
    Parser :=
  let text := input ++ [LB, SPACE, LB]
  { index := 0
    text := text
    currentChar := (text[0]?).getD SPACE
    section_nesting := 0
    sections := []
    section_return := none
    path := path
    paths := (match path with
              | some p => paths ++ [p]
              | none => paths)
    is_child := is_child
    inline_break_at := []
    document := Document.new (!is_child)
    fs := fs }

/-- Parser::new (parser.rs lines 114-116). -/
def Parser.new (input : List Char) (path : Option (List Char))
    (fs : List (List Char)) : Parser :=
  Parser.create input path [] false fs

/-- Parser::new_as_child (parser.rs lines 118-120). -/
def Parser.new_as_child (input : List Char) (path : List Char)
    (paths : List (List Char)) (fs : List (List Char)) : Parser :=
  Parser.create input (some path) paths true fs

/-- Parser::get_text (parser.rs lines 154-158): the full character buffer,
sentinels included, as handed to ParseError::get_position. -/
def get_text (s : Parser) : List Char :=
  s.text

/-! ## Character-state primitives

Modelled from the spec: charstate.rs is not under src/.  Spec section 4.1
describes the substrate: advance-and-return-next with an end-of-input
signal, unconditional skip, inline/full whitespace seeking, non-consuming
tests of one character, a set, or a sequence, asserting variants that
revert to a given index and fail, consume-until-stop-set with an exclusion
set (failing on an empty result, which is what makes zero-pair metadata
and the production loops terminate), consume-until-stop-sequence, and
checkpoint/restore via indices.  The concrete behaviour at the boundaries
(the cursor keeps its last character when advancing past the end; a failed
restore to an out-of-range index leaves the cursor in place) follows the
call sites in parser.rs, which compensate exactly for these conventions. -/

/-- Modelled from the spec (section 4.1): increment the index and return
the character there, or the end-of-input signal (the index is still
incremented, and the current character keeps its previous value). -/
def next_char (s : Parser) : Option Char × Parser :=
  let i := s.index + 1
  match s.text[i]? with
  | some c => (some c, { s with index := i, currentChar := c })
  | none => (none, { s with index := i })

/-- Modelled from the spec (section 4.1): skip the current character
unconditionally. -/
def skip_char (s : Parser) : Parser :=
  (next_char s).2

/-- Modelled from the spec (section 4.1): restore the cursor to a
previously captured index; fails (leaving the cursor in place) when the
index is out of range. -/
def revert_to (s : Parser) (i : Nat) : Except ParseError Unit × Parser :=
  match s.text[i]? with
  | some c => (.ok (), { s with index := i, currentChar := c })
  | none => (.error (ParseError.mk i none), s)

/-- Modelled from the spec (section 4.1): revert and produce an error
tagged with the position where the failure occurred. -/
def revert_with_error (s : Parser) (i : Nat) : ParseError × Parser :=
  let e := ParseError.mk s.index none
  match revert_to s i with
  | (.ok _, s') => (e, s')
  | (.error re, s') => (re, s')

/-- revert_to when the result is discarded (the Rust call sites use
`let _ = self.revert_to(..)`). -/
def revert_ignore (s : Parser) (i : Nat) : Parser :=
  (revert_to s i).2

/-- Modelled from the spec (section 4.1): test the current character
against one value without consuming. -/
def check_special (s : Parser) (c : Char) : Bool :=
  s.currentChar = c

/-- Modelled from the spec (section 4.1): test the current character
against a set without consuming. -/
def check_special_group (s : Parser) (cs : List Char) : Bool :=
  s.currentChar ∈ cs

/-- Modelled from the spec (section 4.1): test for a linebreak. -/
def check_linebreak (s : Parser) : Bool :=
  s.currentChar = LB

/-- Inner loop of check_special_sequence: compare each sequence character
with the current character, advancing after each successful comparison;
the advance after the last character must also succeed. -/
def css_loop : List Char → Parser → Bool × Parser
  | [], s => (true, s)
  | c :: rest, s =>
    if s.currentChar = c then
      match next_char s with
      | (some _, s') => css_loop rest s'
      | (none, s') => (false, s')
    else (false, s)

/-- Modelled from the spec (section 4.1): test a multi-character sequence
at the cursor without (net) consuming on failure; on success the cursor is
left on the last character of the sequence. -/
def check_special_sequence (s : Parser) (seq : List Char) : Bool × Parser :=
  let start := s.index
  match css_loop seq s with
  | (true, s') => (true, revert_ignore s' (s'.index - 1))
  | (false, s') => (false, revert_ignore s' start)

/-- Modelled from the spec (section 4.1): try each sequence of a group in
order, stopping at the first match. -/
def check_special_sequence_group (s : Parser) :
    List (List Char) → Bool × Parser
  | [] => (false, s)
  | seq :: rest =>
    match check_special_sequence s seq with
    | (true, s') => (true, s')
    | (false, s') => check_special_sequence_group s' rest

/-- Modelled from the spec (section 4.1): assert one character at the
cursor or revert to the given index and fail. -/
def assert_special (s : Parser) (c : Char) (ri : Nat) :
    Except ParseError Unit × Parser :=
  if check_special s c then (.ok (), s)
  else
    let (e, s') := revert_with_error s ri
    (.error e, s')

/-- Modelled from the spec (section 4.1): assert one of a set of
characters at the cursor or revert to the given index and fail. -/
def assert_special_group (s : Parser) (cs : List Char) (ri : Nat) :
    Except ParseError Unit × Parser :=
  if check_special_group s cs then (.ok (), s)
  else
    let (e, s') := revert_with_error s ri
    (.error e, s')

/-- Modelled from the spec (section 4.1): assert a sequence at the cursor
(leaving the cursor on its last character) or revert to the given index
and fail. -/
def assert_special_sequence (s : Parser) (seq : List Char) (ri : Nat) :
    Except ParseError Unit × Parser :=
  match check_special_sequence s seq with
  | (true, s') => (.ok (), s')
  | (false, s') =>
    let (e, s'') := revert_with_error s' ri
    (.error e, s'')

/-- Modelled from the spec (section 4.1): assert one of a group of
sequences at the cursor or revert to the given index and fail. -/
def assert_special_sequence_group (s : Parser) (seqs : List (List Char))
    (ri : Nat) : Except ParseError Unit × Parser :=
  match check_special_sequence_group s seqs with
  | (true, s') => (.ok (), s')
  | (false, s') =>
    let (e, s'') := revert_with_error s' ri
    (.error e, s'')

/-- Loop of seek_whitespace. -/
def sw_loop : Nat → Parser → Parser
  | 0, s => s
  | fuel+1, s =>
    match next_char s with
    | (none, s') => s'
    | (some c, s') => if !c.isWhitespace then s' else sw_loop fuel s'

/-- Modelled from the spec (section 4.1): skip consecutive whitespace
including linebreaks. -/
def seek_whitespace (fuel : Nat) (s : Parser) : Parser :=
  if s.currentChar.isWhitespace then sw_loop fuel s else s

/-- Loop of seek_inline_whitespace. -/
def siw_loop : Nat → Parser → Parser
  | 0, s => s
  | fuel+1, s =>
    match next_char s with
    | (none, s') => s'
    | (some c, s') =>
      if !c.isWhitespace || check_linebreak s' then s' else siw_loop fuel s'

/-- Modelled from the spec (section 4.1): skip consecutive inline
whitespace (whitespace that is not a linebreak). -/
def seek_inline_whitespace (fuel : Nat) (s : Parser) : Parser :=
  if s.currentChar.isWhitespace && !check_linebreak s then siw_loop fuel s
  else s

/-- Modelled from the spec (section 4.1): seek inline whitespace and
report whether the cursor moved. -/
def check_seek_inline_whitespace (fuel : Nat) (s : Parser) : Bool × Parser :=
  let start := s.index
  let s' := seek_inline_whitespace fuel s
  (decide (start < s'.index), s')

/-- Loop of seek_until_linebreak. -/
def sul_loop : Nat → Parser → Parser
  | 0, s => s
  | fuel+1, s =>
    match next_char s with
    | (none, s') => s'
    | (some _, s') =>
      if check_special s' LB then skip_char s' else sul_loop fuel s'

/-- Modelled from the spec (section 4.1): skip forward until a linebreak
has been consumed (or the input is exhausted). -/
def seek_until_linebreak (fuel : Nat) (s : Parser) : Parser :=
  if check_special s LB then skip_char s else sul_loop fuel s

/-- Loop of get_string_until: consume characters after the current one
until a stop or exclusion character is reached. -/
def gsu_loop (brk err : List Char) : Nat → Parser → Except ParseError (List Char) × Parser
  | 0, s => (.error (ParseError.mk s.index (some "fuel")), s)
  | fuel+1, s =>
    match next_char s with
    | (none, s') => (.ok [], s')
    | (some c, s') =>
      if c ∈ brk || c ∈ err then (.ok [], s')
      else
        match gsu_loop brk err fuel s' with
        | (.ok cs, s'') => (.ok (c :: cs), s'')
        | (.error e, s'') => (.error e, s'')

/-- Modelled from the spec (section 4.1): consume characters into a string
until one of a stop set is reached, with an exclusion set whose characters
cause failure with the cursor restored; an empty result (the cursor
already on a stop or exclusion character) is a failure.  The cursor is
left on the stop character. -/
def get_string_until (fuel : Nat) (s : Parser) (brk err : List Char) :
    Except ParseError (List Char) × Parser :=
  let start := s.index
  if s.currentChar ∈ brk || s.currentChar ∈ err then
    (.error (ParseError.mk s.index none), s)
  else
    match gsu_loop brk err fuel s with
    | (.ok cs, s') =>
      if s'.currentChar ∈ err then
        let (e, s'') := revert_with_error s' start
        (.error e, s'')
      else (.ok (s.currentChar :: cs), s')
    | (.error e, s') => (.error e, s')

/-- Loop of get_string_until_sequence: consume characters after the
current one until one of the stop sequences matches (the cursor is then
left on the last character of the match) or an exclusion character is
reached. -/
def gsus_loop (brks : List (List Char)) (err : List Char) :
    Nat → Parser → Except ParseError (List Char) × Parser
  | 0, s => (.error (ParseError.mk s.index (some "fuel")), s)
  | fuel+1, s =>
    match next_char s with
    | (none, s') => (.ok [], s')
    | (some c, s') =>
      match check_special_sequence_group s' brks with
      | (true, s'') => (.ok [], s'')
      | (false, s'') =>
        if c ∈ err then (.ok [], s'')
        else
          match gsus_loop brks err fuel s'' with
          | (.ok cs, s₃) => (.ok (c :: cs), s₃)
          | (.error e, s₃) => (.error e, s₃)

/-- Modelled from the spec (section 4.1): consume characters into a string
until a multi-character stop sequence is reached, with an exclusion set
causing failure with the cursor restored; an empty result is a failure.
The cursor is left on the last character of the matched stop sequence. -/
def get_string_until_sequence (fuel : Nat) (s : Parser)
    (brks : List (List Char)) (err : List Char) :
    Except ParseError (List Char) × Parser :=
  let start := s.index
  match check_special_sequence_group s brks with
  | (true, s₀) => (.error (ParseError.mk s₀.index none), s₀)
  | (false, s₀) =>
    if s₀.currentChar ∈ err then (.error (ParseError.mk s₀.index none), s₀)
    else
      match gsus_loop brks err fuel s₀ with
      | (.ok cs, s') =>
        if s'.currentChar ∈ err then
          let (e, s'') := revert_with_error s' start
          (.error e, s'')
        else (.ok (s₀.currentChar :: cs), s')
      | (.error e, s') => (.error e, s')


/-! ## Numeric value parsing

Modelled from the spec (section 4.2): bare metadata tokens are coerced via
the Rust standard library integer and float parsers.  The integer parser
accepts an optional sign followed by decimal digits within the i64 range;
the float parser is modelled for decimal literals (optional sign, digits
with an optional single decimal point) and represents the value exactly as
a rational. -/

def digits_val (cs : List Char) : Nat :=
  cs.foldl (fun a c => a * 10 + (c.toNat - 48)) 0

/-- Modelled from the spec: i64::from_str on a bare token. -/
def parse_i64 (cs : List Char) : Option Int :=
  let sign : Int :=
    match cs with
    | '-' :: _ => -1
    | _ => 1
  let digits :=
    match cs with
    | '-' :: rest => rest
    | '+' :: rest => rest
    | _ => cs
  if digits = [] then none
  else if !digits.all Char.isDigit then none
  else
    let v : Int := sign * (digits_val digits : Int)
    if -(2 ^ 63) ≤ v ∧ v < 2 ^ 63 then some v else none

/-- Modelled from the spec: f64::from_str on a bare token, restricted to
plain decimal literals and represented exactly. -/
def parse_f64 (cs : List Char) : Option Rat :=
  let sign : Rat :=
    match cs with
    | '-' :: _ => -1
    | _ => 1
  let body :=
    match cs with
    | '-' :: rest => rest
    | '+' :: rest => rest
    | _ => cs
  let ip := body.takeWhile (fun c => c ≠ '.')
  match body.dropWhile (fun c => c ≠ '.') with
  | [] =>
    if ip = [] then none
    else if !ip.all Char.isDigit then none
    else some (sign * (digits_val ip : Rat))
  | _ :: frac =>
    if frac.contains '.' then none
    else if ip = [] ∧ frac = [] then none
    else if !ip.all Char.isDigit || !frac.all Char.isDigit then none
    else some (sign * ((digits_val ip : Rat) +
      (digits_val frac : Rat) / (10 : Rat) ^ frac.length))

/-! ## Inline spans -/

/-- Span loop of the modelled inline parser: accumulate characters until
the next linebreak or break character (which is not consumed). -/
def pi_loop : Nat → Parser → List Char × Parser
  | 0, s => ([], s)
  | fuel+1, s =>
    match next_char s with
    | (none, s') => ([], s')
    | (some c, s') =>
      if c = LB ∨ c ∈ s'.inline_break_at then ([], s')
      else
        let (cs, s'') := pi_loop fuel s'
        (c :: cs, s'')

/-- Modelled from the spec (section 6): the inline-span parser is an
external collaborator; given the cursor state and the configured break
characters it produces one inline element and advances the cursor past it,
or fails leaving the cursor unmoved.  It is modelled as one plain-text
span running up to (but not including) the next linebreak or break
character; it fails on a linebreak, on a break character, and at the end
of input. -/
def parse_inline (fuel : Nat) (s : Parser) :
    Except ParseError (List Char) × Parser :=
  if s.text.length ≤ s.index then (.error (ParseError.mk s.index none), s)
  else if s.currentChar = LB ∨ s.currentChar ∈ s.inline_break_at then
    (.error (ParseError.mk s.index none), s)
  else
    let (cs, s') := pi_loop fuel s
    (.ok (s.currentChar :: cs), s')

/-! ## Metadata and placeholders (parser.rs lines 418-486 and 735-758)

parse_placeholder and parse_inline_metadata are mutually recursive: a
metadata value may be a placeholder, and a placeholder may carry trailing
metadata.  All functions recurse structurally on the fuel argument. -/

mutual
/-- parse_placeholder (parser.rs lines 735-758): double-bracket delimited
name captured up to the stop sequence (a linebreak in the interior is a
failure), optional trailing metadata, and registration of the placeholder
into the owning document's registry as a side effect of success. -/
def parse_placeholder : Nat → Parser → Except ParseError Placeholder × Parser
  | 0, s => (.error (ParseError.mk s.index (some "fuel")), s)
  | fuel+1, s =>
    let start := s.index
    match assert_special_sequence s SQ_PHOLDER_START s.index with
    | (.error e, s₁) => (.error e, s₁)
    | (.ok _, s₁) =>
      let s₂ := skip_char s₁
      match get_string_until_sequence fuel s₂ [SQ_PHOLDER_STOP] [LB] with
      | (.error _, s₃) =>
        let (e, s₄) := revert_with_error s₃ start
        (.error e, s₄)
      | (.ok name, s₃) =>
        let s₄ := skip_char s₃
        let (metadata, s₅) :=
          match parse_inline_metadata fuel s₄ with
          | (.ok meta, s') => (some meta, s')
          | (.error _, s') => (none, s')
        let ph := Placeholder.mk name metadata
        let s₆ := { s₅ with document := s₅.document.add_placeholder ph }
        (.ok ph, s₆)
termination_by structural fuel _ => fuel

/-- parse_inline_metadata (parser.rs lines 418-442): open bracket, a loop
of key/value pairs that stops on a closing bracket or linebreak, optional
consumption of the closing bracket, and failure (with the cursor reverted
to the opening bracket) only when zero pairs were accumulated. -/
def parse_inline_metadata : Nat → Parser → Except ParseError InlineMetadata × Parser
  | 0, s => (.error (ParseError.mk s.index (some "fuel")), s)
  | fuel+1, s =>
    let start := s.index
    match assert_special s META_OPEN start with
    | (.error e, s₁) => (.error e, s₁)
    | (.ok _, s₁) =>
      let s₂ := skip_char s₁
      let (values, s₃) := pim_loop fuel s₂ []
      let s₄ := if check_special s₃ META_CLOSE then skip_char s₃ else s₃
      if values.length = 0 then
        let (e, s₅) := revert_with_error s₄ start
        (.error e, s₅)
      else (.ok (InlineMetadata.mk values), s₄)
termination_by structural fuel _ => fuel

/-- Pair-accumulation loop of parse_inline_metadata (parser.rs lines
425-431). -/
def pim_loop : Nat → Parser → List KV → List KV × Parser
  | 0, s, values => (values, s)
  | fuel+1, s, values =>
    match parse_metadata_pair fuel s with
    | (.error _, s') => (values, s')
    | (.ok (k, v), s') =>
      let values := insertKV values k v
      if check_special s' META_CLOSE || check_linebreak s' then (values, s')
      else pim_loop fuel s' values
termination_by structural fuel _ _ => fuel

/-- parse_metadata_pair (parser.rs lines 444-486): a key terminated by
close-bracket / equals / space / linebreak; without an equals sign the
value is boolean true; with one, the value is a placeholder, a quoted
string, or a bare token coerced in the order boolean literal, integer,
float, fallback string. -/
def parse_metadata_pair : Nat → Parser →
    Except ParseError (List Char × MetadataValue) × Parser
  | 0, s => (.error (ParseError.mk s.index (some "fuel")), s)
  | fuel+1, s =>
    let s₀ := seek_inline_whitespace fuel s
    match get_string_until fuel s₀ [META_CLOSE, EQ, SPACE, LB] [] with
    | (.error e, s₁) => (.error e, s₁)
    | (.ok name, s₁) =>
      let s₂ := seek_inline_whitespace fuel s₁
      if check_special s₂ EQ then
        let s₃ := skip_char s₂
        let s₄ := seek_inline_whitespace fuel s₃
        match parse_placeholder fuel s₄ with
        | (.ok ph, s₅) => (.ok (name, MetadataValue.placeholder ph), s₅)
        | (.error _, s₅) =>
          let quoted := check_special_group s₅ QUOTES
          let (parse_until, s₆) :=
            if quoted then
              ([s₅.currentChar, META_CLOSE, LB], skip_char s₅)
            else (([META_CLOSE, LB, SPACE] : List Char), s₅)
          match get_string_until fuel s₆ parse_until [] with
          | (.error e, s₇) => (.error e, s₇)
          | (.ok raw, s₇) =>
            let s₈ := if check_special_group s₇ QUOTES then skip_char s₇ else s₇
            let value :=
              if quoted then MetadataValue.str raw
              else if raw.map Char.toLower = "true".data then MetadataValue.bool true
              else if raw.map Char.toLower = "false".data then MetadataValue.bool false
              else
                match parse_i64 raw with
                | some n => MetadataValue.integer n
                | none =>
                  match parse_f64 raw with
                  | some q => MetadataValue.float q
                  | none => MetadataValue.str raw
            (.ok (name, value), s₈)
      else (.ok (name, MetadataValue.bool true), s₂)
termination_by structural fuel _ => fuel
end

/-! ## List reconstruction (parser.rs lines 545-631)

The stack-unwind step and the final combination loop of parse_list are
factored out as pure functions on the flat item sequence; parse_list runs
them interleaved with item parsing exactly as the Rust loop does, and
build_list_items exposes the same algorithm over an arbitrary flat
document-ordered item sequence. -/

/-- The inner while-let unwind of parse_list (parser.rs lines 560-585),
executed for each newly parsed item against the stack of not-yet-attached
items (head = most recent).  The fuel is the stack length bound; every
call below supplies at least hierarchy.length + 1, which the unwind never
exhausts. -/
def list_unwind : Nat → ListItem → List ListItem → List ListItem →
    List ListItem × List ListItem
  | 0, item, hierarchy, root => (item :: hierarchy, root)
  | _+1, item, [], root => ([item], root)
  | fuel+1, item, parent :: restH, root =>
    if parent.level < item.level then (item :: parent :: restH, root)
    else if parent.level = item.level then
      match restH with
      | [] => ([item], root ++ [parent])
      | pp :: r2 => (item :: add_child pp parent :: r2, root)
    else
      match restH with
      | [] => list_unwind fuel (add_child item parent) [] root
      | pp :: r2 => list_unwind fuel item (add_child pp parent :: r2) root

/-- The final combination loop of parse_list (parser.rs lines 589-599):
attach every remaining stacked item to the entry below it, deepest
first. -/
def list_finalize : Nat → List ListItem → List ListItem
  | 0, h => h
  | _+1, [] => []
  | _+1, [x] => [x]
  | fuel+1, x :: p :: rest => list_finalize fuel (add_child p x :: rest)

/-- The list-hierarchy reconstruction of parse_list (parser.rs lines
558-600) applied to an arbitrary flat document-ordered item sequence:
fold the unwind step over the items, then combine the remaining stack and
append it to the items already attached to the root list. -/
def build_list_items (items : List ListItem) : List ListItem :=
  let step := fun (acc : List ListItem × List ListItem) (item : ListItem) =>
    list_unwind (acc.1.length + 1) item acc.1 acc.2
  let p := items.foldl step ([], [])
  p.2 ++ list_finalize (p.1.length + 1) p.1

/-! ## Non-recursive productions (parser.rs lines 353-416, 488-543,
609-706, 708-786) -/

/-- Loop of parse_text_line (parser.rs lines 771-779). -/
def ptl_loop : Nat → Parser → List (List Char) →
    Except ParseError (List (List Char)) × Parser
  | 0, s, _ => (.error (ParseError.mk s.index (some "fuel")), s)
  | fuel+1, s, acc =>
    match parse_inline fuel s with
    | (.error _, s') => (.ok acc, s')
    | (.ok sub, s') =>
      let acc := acc ++ [sub]
      let cur := s'.index
      match next_char s' with
      | (none, s'') => (.ok acc, s'')
      | (some _, s'') =>
        match revert_to s'' cur with
        | (.error e, s₃) => (.error e, s₃)
        | (.ok _, s₃) => ptl_loop fuel s₃ acc

/-- parse_text_line (parser.rs lines 769-786). -/
def parse_text_line (fuel : Nat) (s : Parser) :
    Except ParseError TextLine × Parser :=
  match ptl_loop fuel s [] with
  | (.error e, s₁) => (.error e, s₁)
  | (.ok subs, s₁) =>
    if check_linebreak s₁ then
      match next_char s₁ with
      | (none, s₂) => (.error (ParseError.mk s₂.index none), s₂)
      | (some _, s₂) => (.ok (TextLine.mk subs), s₂)
    else (.ok (TextLine.mk subs), s₁)

/-- parse_ruler (parser.rs lines 760-767). -/
def parse_ruler (fuel : Nat) (s : Parser) : Except ParseError Unit × Parser :=
  let start := s.index
  let s₁ := seek_inline_whitespace fuel s
  match assert_special_sequence s₁ SQ_RULER start with
  | (.error e, s₂) => (.error e, s₂)
  | (.ok _, s₂) => (.ok (), seek_until_linebreak fuel s₂)

/-- parse_centered (parser.rs lines 725-733). -/
def parse_centered (fuel : Nat) (s : Parser) :
    Except ParseError TextLine × Parser :=
  let start := s.index
  match assert_special_sequence s SQ_CENTERED_START start with
  | (.error e, s₁) => (.error e, s₁)
  | (.ok _, s₁) =>
    let s₂ := skip_char s₁
    match parse_text_line fuel s₂ with
    | (.error e, s₃) => (.error e, s₃)
    | (.ok t, s₃) => (.ok t, s₃)

/-- parse_line (parser.rs lines 708-723): ruler, then centered, then plain
text, guarded by the index bound check. -/
def parse_line (fuel : Nat) (s : Parser) : Except ParseError Line × Parser :=
  if s.index > s.text.length then (.error (ParseError.mk s.index none), s)
  else
    match parse_ruler fuel s with
    | (.ok _, s₁) => (.ok Line.ruler, s₁)
    | (.error _, s₁) =>
      match parse_centered fuel s₁ with
      | (.ok t, s₂) => (.ok (Line.centered t), s₂)
      | (.error _, s₂) =>
        match parse_text_line fuel s₂ with
        | (.ok t, s₃) => (.ok (Line.text t), s₃)
        | (.error _, s₃) => (.error (ParseError.mk s₃.index none), s₃)

/-- parse_header (parser.rs lines 353-363): a parsed line plus the anchor
derived from the consumed source slice with all whitespace removed. -/
def parse_header (fuel : Nat) (s : Parser) : Except ParseError Header × Parser :=
  let start := s.index
  match parse_line fuel s with
  | (.error e, s₁) => (.error e, s₁)
  | (.ok line, s₁) =>
    let anchor := ((s₁.text.drop start).take (s₁.index - start)).filter
      (fun c => !c.isWhitespace)
    (.ok (Header.mk 0 line anchor), s₁)

/-- parse_code_block (parser.rs lines 365-381): fence, language tag up to
the linebreak, verbatim text up to the closing fence, then two skips. -/
def parse_code_block (fuel : Nat) (s : Parser) :
    Except ParseError CodeBlock × Parser :=
  let s₀ := seek_whitespace fuel s
  match assert_special_sequence s₀ SQ_CODE_BLOCK s₀.index with
  | (.error e, s₁) => (.error e, s₁)
  | (.ok _, s₁) =>
    let s₂ := skip_char s₁
    match get_string_until fuel s₂ [LB] [] with
    | (.error e, s₃) => (.error e, s₃)
    | (.ok language, s₃) =>
      let s₄ := skip_char s₃
      match get_string_until_sequence fuel s₄ [SQ_CODE_BLOCK] [] with
      | (.error e, s₅) => (.error e, s₅)
      | (.ok text, s₅) =>
        (.ok (CodeBlock.mk language text), skip_char (skip_char s₅))

/-- Quoted-line loop of parse_quote (parser.rs lines 399-410), including
the short-circuit evaluation order of the while condition. -/
def quote_loop : Nat → Parser → List TextLine → List TextLine × Parser
  | 0, s, acc => (acc, s)
  | fuel+1, s, acc =>
    if !(check_special s QUOTE_START) then (acc, s)
    else
      match next_char s with
      | (none, s') => (acc, s')
      | (some _, s') =>
        let (moved, s'') := check_seek_inline_whitespace fuel s'
        if moved || check_special s'' LB then
          match parse_text_line fuel s'' with
          | (.ok t, s₃) =>
            quote_loop fuel s₃ (if t.subtext.length > 0 then acc ++ [t] else acc)
          | (.error _, s₃) => (acc, s₃)
        else (acc, s'')

/-- Tail of parse_quote after the metadata attempt. -/
def parse_quote_rest (fuel : Nat) (start : Nat)
    (metadata : Option InlineMetadata) (s : Parser) :
    Except ParseError Quote × Parser :=
  let (texts, s₁) := quote_loop fuel s []
  if texts.length = 0 then
    let (e, s₂) := revert_with_error s₁ start
    (.error e, s₂)
  else (.ok (Quote.mk metadata texts), s₁)

/-- parse_quote (parser.rs lines 383-416). -/
def parse_quote (fuel : Nat) (s : Parser) : Except ParseError Quote × Parser :=
  let start := s.index
  let s₁ := seek_whitespace fuel s
  let (metadata, s₂) :=
    match parse_inline_metadata fuel s₁ with
    | (.ok meta, s') => (some meta, s')
    | (.error _, s') => (none, s')
  if check_special s₂ META_CLOSE then
    match next_char s₂ with
    | (none, s₃) =>
      let (e, s₄) := revert_with_error s₃ start
      (.error e, s₄)
    | (some _, s₃) => parse_quote_rest fuel start metadata s₃
  else parse_quote_rest fuel start metadata s₂

/-- Cell loop of parse_row (parser.rs lines 676-681). -/
def row_cell_loop : Nat → Parser → List (List Char) →
    List (List Char) × Parser
  | 0, s, acc => (acc, s)
  | fuel+1, s, acc =>
    match parse_inline fuel s with
    | (.error _, s') => (acc, s')
    | (.ok sub, s') =>
      let acc := acc ++ [sub]
      if check_linebreak s' || check_special s' PIPE then (acc, s')
      else row_cell_loop fuel s' acc

/-- Row loop of parse_row (parser.rs lines 674-692). -/
def row_loop : Nat → Parser → List Cell → List Cell × Parser
  | 0, s, cells => (cells, s)
  | fuel+1, s, cells =>
    let (subs, s₁) := row_cell_loop fuel s []
    let cells := cells ++ [Cell.mk (Line.text (TextLine.mk subs))]
    let s₂ := if check_special s₁ PIPE then skip_char s₁ else s₁
    if check_linebreak s₂ then (cells, s₂)
    else row_loop fuel (seek_inline_whitespace fuel s₂) cells

/-- parse_row (parser.rs lines 661-706). -/
def parse_row (fuel : Nat) (s : Parser) : Except ParseError Row × Parser :=
  let start := s.index
  let s₁ := seek_inline_whitespace fuel s
  match assert_special s₁ PIPE start with
  | (.error e, s₂) => (.error e, s₂)
  | (.ok _, s₂) =>
    let s₃ := skip_char s₂
    if check_special s₃ PIPE then
      let (e, s₄) := revert_with_error s₃ start
      (.error e, s₄)
    else
      let s₄ := { s₃ with inline_break_at := s₃.inline_break_at ++ [PIPE] }
      let s₅ := seek_inline_whitespace fuel s₄
      let (cells, s₆) := row_loop fuel s₅ []
      let s₇ := { s₆ with inline_break_at := [] }
      let s₈ := if check_special s₇ PIPE then skip_char (skip_char s₇)
                else skip_char s₇
      if cells.length > 0 then (.ok (Row.mk cells), s₈)
      else
        let (e, s₉) := revert_with_error s₈ start
        (.error e, s₉)

/-- Separator scan loop of parse_table (parser.rs lines 641-646): skip the
current character, then loop seeking inline whitespace and requiring
dash/pipe characters until a linebreak or other character breaks the
scan. -/
def table_sep_loop : Nat → Parser → Parser
  | 0, s => s
  | fuel+1, s =>
    match next_char s with
    | (none, s') => s'
    | (some _, s') =>
      let s'' := seek_inline_whitespace fuel s'
      if !(check_special_group s'' [MINUS, PIPE]) || check_linebreak s'' then s''
      else table_sep_loop fuel s''

/-- Data-row loop of parse_table (parser.rs lines 654-656). -/
def table_row_loop : Nat → Parser → Table → Table × Parser
  | 0, s, t => (t, s)
  | fuel+1, s, t =>
    match parse_row fuel s with
    | (.error _, s') => (t, s')
    | (.ok r, s') => table_row_loop fuel s' (t.add_row r)

/-- parse_table (parser.rs lines 633-659). -/
def parse_table (fuel : Nat) (s : Parser) : Except ParseError Table × Parser :=
  match parse_row fuel s with
  | (.error e, s₁) => (.error e, s₁)
  | (.ok header, s₁) =>
    let s₂ := if check_linebreak s₁ then skip_char s₁ else s₁
    let seek := s₂.index
    let table := Table.mk header []
    let s₃ := table_sep_loop fuel s₂
    if !(check_linebreak s₃) then
      match revert_to s₃ seek with
      | (.error e, s₄) => (.error e, s₄)
      | (.ok _, s₄) => (.ok table, s₄)
    else
      let s₄ := seek_whitespace fuel s₃
      let (table, s₅) := table_row_loop fuel s₄ table
      (.ok table, s₅)

/-- parse_list_item (parser.rs lines 609-631): the indentation level is the
amount of inline whitespace before the marker, the marker must come from
the list marker set and be followed by inline whitespace, and a further
dash means this is not a list item. -/
def parse_list_item (fuel : Nat) (s : Parser) :
    Except ParseError ListItem × Parser :=
  let start := s.index
  let s₁ := seek_inline_whitespace fuel s
  let level := s₁.index - start
  match assert_special_group s₁ LIST_SPECIAL_CHARS start with
  | (.error e, s₂) => (.error e, s₂)
  | (.ok _, s₂) =>
    let ordered := s₂.currentChar.isDigit
    let s₃ := skip_char s₂
    let s₄ := if check_special s₃ DOT then skip_char s₃ else s₃
    let (moved, s₅) := check_seek_inline_whitespace fuel s₄
    if !moved then
      let (e, s₆) := revert_with_error s₅ start
      (.error e, s₆)
    else
      let s₆ := seek_inline_whitespace fuel s₅
      if check_special s₆ MINUS then
        let (e, s₇) := revert_with_error s₆ start
        (.error e, s₇)
      else
        match parse_line fuel s₆ with
        | (.error e, s₇) => (.error e, s₇)
        | (.ok line, s₇) => (.ok (ListItem.mk line level ordered []), s₇)

/-- Item loop of parse_list (parser.rs lines 559-587): parse flat items,
unwinding the hierarchy stack for each one. -/
def pl_loop : Nat → Parser → List ListItem → List ListItem →
    List ListItem × List ListItem × Parser
  | 0, s, hierarchy, root => (hierarchy, root, s)
  | fuel+1, s, hierarchy, root =>
    match parse_list_item fuel s with
    | (.error _, s') => (hierarchy, root, s')
    | (.ok item, s') =>
      let p := list_unwind (hierarchy.length + 1) item hierarchy root
      pl_loop fuel s' p.1 p.2

/-- parse_list (parser.rs lines 545-607). -/
def parse_list (fuel : Nat) (s : Parser) :
    Except ParseError ListBlock × Parser :=
  let start := s.index
  let s₁ := seek_whitespace fuel s
  let ordered := if check_special_group s₁ LIST_SPECIAL_CHARS then false else true
  let (hierarchy, root, s₂) := pl_loop fuel s₁ [] []
  let items := root ++ list_finalize (hierarchy.length + 1) hierarchy
  if items.length > 0 then (.ok (ListBlock.mk ordered items), s₂)
  else
    let (e, s₃) := revert_with_error s₂ start
    (.error e, s₃)

/-! ## Imports (parser.rs lines 160-224 and 488-522) -/

/-- Modelled from the spec (section 4.4): Path::is_absolute. -/
def is_absolute (p : List Char) : Bool :=
  match p with
  | '/' :: _ => true
  | _ => false

/-- Modelled from the spec (section 4.4): the directory component of a
path (everything before the last slash). -/
def dir_of (p : List Char) : List Char :=
  ((p.reverse.dropWhile (fun c => c ≠ '/')).drop 1).reverse

/-- transform_path (parser.rs lines 160-177): an absolute path is used
as-is; a relative path is resolved against the directory of the importing
document's own path when that path names an existing file.  Path
semantics are Modelled from the spec (section 4.4). -/
def transform_path (s : Parser) (path : List Char) : List Char :=
  if is_absolute path then path
  else
    match s.path with
    | some selfpath =>
      if selfpath ∈ s.fs then dir_of selfpath ++ '/' :: path
      else path
    | none => path

/-- import_document (parser.rs lines 179-224): resolve the path, fail with
"file does not exist" when it does not name an existing regular file, then
check-and-register the path against the shared visited-path registry in
one critical section, failing with "cyclic import" when the path is
already present.  On success the Rust code spawns a background thread that
parses the target as a child document and fills the shared anchor; the
sequential embedding registers the path and returns the still-empty
anchor (the spawned parse and the join handle have no sequential effect
at this point). -/
def import_document (s : Parser) (path : List Char) :
    Except ParseError ImportAnchor × Parser :=
  let path := transform_path s path
  if path ∉ s.fs then
    (.error (ParseError.mk s.index (some "file does not exist")), s)
  else if path ∈ s.paths then
    (.error (ParseError.mk s.index (some "cyclic import")), s)
  else
    (.ok (ImportAnchor.mk none), { s with paths := s.paths ++ [path] })

/-- Path-character loop of parse_import (parser.rs lines 494-499). -/
def ipl_loop : Nat → Parser → List Char → List Char × Parser
  | 0, s, acc => (acc, s)
  | fuel+1, s, acc =>
    match next_char s with
    | (none, s') => (acc, s')
    | (some c, s') =>
      if check_linebreak s' || check_special s' IMPORT_CLOSE then (acc, s')
      else ipl_loop fuel s' (acc ++ [c])

/-- parse_import (parser.rs lines 488-522). -/
def parse_import (fuel : Nat) (s : Parser) : Except ParseError Import × Parser :=
  let start := s.index
  let s₁ := seek_whitespace fuel s
  match assert_special_sequence_group s₁ [[IMPORT_START, IMPORT_OPEN]] start with
  | (.error e, s₂) => (.error e, s₂)
  | (.ok _, s₂) =>
    let (path, s₃) := ipl_loop fuel s₂ []
    if check_linebreak s₃ || path.length = 0 then
      let (e, s₄) := revert_with_error s₃ start
      (.error e, s₄)
    else
      match (if check_special s₃ IMPORT_CLOSE then
               match next_char s₃ with
               | (none, s') => ((.error (ParseError.mk s'.index none) :
                   Except ParseError Unit), s')
               | (some _, s') => (.ok (), s')
             else ((.ok () : Except ParseError Unit), s₃)) with
      | (.error e, s₄) => (.error e, s₄)
      | (.ok _, s₄) =>
        if 0 < s₄.section_nesting then
          let s₅ := { s₄ with section_return := some 0 }
          let err := ParseError.mk s₅.index (some "import section nesting error")
          match revert_to s₅ start with
          | (.error re, s₆) => (.error re, s₆)
          | (.ok _, s₆) => (.error err, s₆)
        else
          let s₅ := seek_whitespace fuel s₄
          match import_document s₅ path with
          | (.ok anchor, s₆) => (.ok (Import.mk path anchor), s₆)
          | (.error _, s₆) => (.error (ParseError.mk s₆.index none), s₆)

/-- Line loop of parse_paragraph (parser.rs lines 528-536), including the
propagating revert after the block-character lookahead. -/
def par_loop : Nat → Parser → List Line → Except ParseError (List Line) × Parser
  | 0, s, acc => (.ok acc, s)
  | fuel+1, s, acc =>
    match parse_line fuel s with
    | (.error _, s') => (.ok acc, s')
    | (.ok line, s') =>
      let acc := acc ++ [line]
      let start := s'.index
      let (isSpec, s₁) := check_special_sequence_group s' BLOCK_SPECIAL_CHARS
      match revert_to s₁ start with
      | (.error e, s₂) => (.error e, s₂)
      | (.ok _, s₂) => if isSpec then (.ok acc, s₂) else par_loop fuel s₂ acc

/-- parse_paragraph (parser.rs lines 524-543). -/
def parse_paragraph (fuel : Nat) (s : Parser) :
    Except ParseError Paragraph × Parser :=
  let s₁ := seek_whitespace fuel s
  match par_loop fuel s₁ [] with
  | (.error e, s₂) => (.error e, s₂)
  | (.ok elems, s₂) =>
    if elems.length > 0 then (.ok (Paragraph.mk elems), s₂)
    else (.error (ParseError.mk s₂.index none), s₂)

/-- Marker-counting loop of parse_section (parser.rs lines 311-317). -/
def hash_loop : Nat → Parser → Nat → Nat × Parser
  | 0, s, size => (size, s)
  | fuel+1, s, size =>
    match next_char s with
    | (none, s') => (size, s')
    | (some _, s') =>
      if !(check_special s' HASH) then (size, s')
      else hash_loop fuel s' (size + 1)

/-! ## Sections and block alternation (parser.rs lines 267-351)

parse_section and parse_block are mutually recursive (a section parses its
child blocks, a block may be a section); both recurse structurally on the
fuel. -/

mutual
/-- parse_section (parser.rs lines 306-351): count the header markers,
attempt inline metadata, set the pending section-return signal and fail
without consuming when the marker count is at most the current nesting
depth (or the marker run is not followed by whitespace), otherwise push
the depth, parse the header and child blocks until a child fails, then pop
the depth. -/
def parse_section : Nat → Parser → Except ParseError Sect × Parser
  | 0, s => (.error (ParseError.mk s.index (some "fuel")), s)
  | fuel+1, s =>
    let start := s.index
    let s₁ := seek_whitespace fuel s
    if check_special s₁ HASH then
      let (size, s₂) := hash_loop fuel s₁ 1
      let (metadata, s₃) :=
        match parse_inline_metadata fuel s₂ with
        | (.ok meta, s') => (some meta, s')
        | (.error _, s') => (none, s')
      if size ≤ s₃.section_nesting ∨ s₃.currentChar.isWhitespace = false then
        let s₄ := if size ≤ s₃.section_nesting then
                    { s₃ with section_return := some size }
                  else s₃
        let (e, s₅) := revert_with_error s₄ start
        (.error e, s₅)
      else
        let s₄ := seek_inline_whitespace fuel s₃
        match parse_header fuel s₄ with
        | (.error e, s₅) => (.error e, s₅)
        | (.ok header, s₅) =>
          let header := { header with size := size }
          let s₆ := { s₅ with section_nesting := size,
                              sections := s₅.sections ++ [size] }
          let sect := Sect.mk header metadata []
          let s₇ := seek_whitespace fuel s₆
          let (sect, s₈) := section_block_loop fuel s₇ sect
          let sections' := s₈.sections.dropLast
          let nesting' := (sections'.getLast?).getD 0
          (.ok sect, { s₈ with sections := sections',
                               section_nesting := nesting' })
    else
      let (e, s₂) := revert_with_error s₁ start
      (.error e, s₂)
termination_by structural fuel _ => fuel

/-- Child-block loop of parse_section (parser.rs lines 337-339); a child
failure is normal termination of the section. -/
def section_block_loop : Nat → Parser → Sect → Sect × Parser
  | 0, s, sect => (sect, s)
  | fuel+1, s, sect =>
    match parse_block fuel s with
    | (.error _, s') => (sect, s')
    | (.ok b, s') => section_block_loop fuel s' (sect.add_element b)
termination_by structural fuel _ _ => fuel

/-- parse_block (parser.rs lines 267-304): observe the pending
section-return signal (failing while it still names an enclosing depth,
clearing it otherwise), then try the block alternatives in their fixed
order, short-circuiting on a freshly set signal after the section
attempt and after the attempt at an import. -/
def parse_block : Nat → Parser → Except ParseError Block × Parser
  | 0, s => (.error (ParseError.mk s.index (some "fuel")), s)
  | fuel+1, s =>
    match (match s.section_return with
           | some sec =>
             if sec ≤ s.section_nesting ∧ 0 < s.section_nesting then none
             else some { s with section_return := none }
           | none => some s) with
    | none => (.error (ParseError.mk s.index (some "invalid section nesting")), s)
    | some s₀ =>
      match parse_section fuel s₀ with
      | (.ok sect, s₁) => (.ok (Block.sec sect), s₁)
      | (.error _, s₁) =>
        if s₁.section_return.isSome then
          (.error (ParseError.mk s₁.index none), s₁)
        else
          match parse_list fuel s₁ with
          | (.ok l, s₂) => (.ok (Block.listB l), s₂)
          | (.error _, s₂) =>
            match parse_table fuel s₂ with
            | (.ok t, s₃) => (.ok (Block.table t), s₃)
            | (.error _, s₃) =>
              match parse_code_block fuel s₃ with
              | (.ok c, s₄) => (.ok (Block.codeBlock c), s₄)
              | (.error _, s₄) =>
                match parse_quote fuel s₄ with
                | (.ok q, s₅) => (.ok (Block.quote q), s₅)
                | (.error _, s₅) =>
                  match parse_import fuel s₅ with
                  | (.ok i, s₆) => (.ok (Block.imp i), s₆)
                  | (.error _, s₆) =>
                    if s₆.section_return.isSome then
                      (.error (ParseError.mk s₆.index none), s₆)
                    else
                      match parse_placeholder fuel s₆ with
                      | (.ok p, s₇) => (.ok (Block.placeholder p), s₇)
                      | (.error _, s₇) =>
                        match parse_paragraph fuel s₇ with
                        | (.ok p, s₈) => (.ok (Block.paragraph p), s₈)
                        | (.error _, s₈) =>
                          (.error (ParseError.mk s₈.index none), s₈)
termination_by structural fuel _ => fuel
end

/-! ## Top-level parse (parser.rs lines 226-265) -/

/-- Modelled from the spec (section 6): the placeholder-resolution pass is
an external collaborator invoked on the completed root document; it
rewrites the eventual values of registered placeholders in place and does
not alter the block structure, so it is represented as the identity on
the document tree. -/
def process_placeholders (d : Document) : Document := d

/-- Block loop of parse (parser.rs lines 230-253): parse blocks and append
them to the document until the input is exhausted or a block fails (the
failure is reported and the loop stops; already-parsed blocks remain). -/
def parse_loop : Nat → Parser → Parser
  | 0, s => s
  | fuel+1, s =>
    if s.index < s.text.length then
      match parse_block fuel s with
      | (.ok b, s') =>
        parse_loop fuel { s' with document := s'.document.add_element b }
      | (.error _, s') => s'
    else s

/-- parse (parser.rs lines 226-265): set the document path, run the block
loop, wait on the join barrier (the WaitGroup wait has no sequential
effect in this embedding), run the placeholder-resolution pass on the
root document only, and return the document while resetting the parser's
own copy. -/
def parse (fuel : Nat) (s : Parser) : Document × Parser :=
  let s := { s with document := s.document.set_path s.path }
  let s := parse_loop fuel s
  let s := if !s.is_child then
             { s with document := process_placeholders s.document }
           else s
  let doc := s.document
  (doc, { s with document := Document.new (!s.is_child) })

/-! ## Error positions (parser.rs lines 75-91) -/

/-- Modelled from the spec: Rust str::lines — split on newline, a trailing
newline does not produce a final empty line, and the empty string has no
lines. -/
def lines_of (s : List Char) : List (List Char) :=
  if s = [] then []
  else
    let parts := s.splitOn LB
    if s.getLast? = some LB then parts.dropLast else parts

/-- ParseError::get_position (parser.rs lines 75-91): None when the
content is no longer than the error index; otherwise the linebreak count
of the prefix before the index and the position within its last line
(None again when the prefix has no last line). -/
def get_position (e : ParseError) (content : List Char) : Option (Nat × Nat) :=
  if content.length ≤ e.index then none
  else
    let pre := content.take e.index
    let line_number := pre.count LB
    let overshoot : Int := (e.index : Int) - (pre.length : Int)
    match (lines_of pre).getLast? with
    | some line => some (line_number, ((line.length : Int) + overshoot).toNat)
    | none => none



/-! ## Evaluation step lemmas

Concrete runs of the parser are proved by composing per-production step
lemmas.  Each lemma restates one control-flow path of a production with
every intermediate step exposed as an equation hypothesis over explicit
intermediate states; the concrete instances discharge those hypotheses by
reflexivity.  (A single definitional-reduction proof of a whole parse is
beyond the kernel's reach because the threaded parser states share no
structure.) -/

/-- Success path of parse_section: marker run, failed metadata attempt,
valid depth, header, child-block loop, depth pop. -/
theorem parse_section_ok (f : Nat) (s : Parser) (size n : Nat) (cc : Char)
    (s₁ s₂ s₃ s₄ s₅ s₇ s₈ : Parser) (hd : Header) {em : ParseError} {sect : Sect}
    (h1 : seek_whitespace f s = s₁)
    (h2 : check_special s₁ HASH = true)
    (h3 : hash_loop f s₁ 1 = (size, s₂))
    (h4 : parse_inline_metadata f s₂ = (.error em, s₃))
    (hn : s₃.section_nesting = n)
    (hc : s₃.currentChar = cc)
    (h5 : ¬ (size ≤ n ∨ cc.isWhitespace = false))
    (h7 : seek_inline_whitespace f s₃ = s₄)
    (h8 : parse_header f s₄ = (.ok hd, s₅))
    (h9 : seek_whitespace f { s₅ with section_nesting := size, sections := s₅.sections ++ [size] } = s₇)
    (h10 : section_block_loop f s₇ (Sect.mk { hd with size := size } none []) = (sect, s₈)) :
    parse_section (f+1) s =
      (.ok sect, { s₈ with sections := s₈.sections.dropLast, section_nesting := (s₈.sections.dropLast.getLast?).getD 0 }) := by
  subst hn hc
  simp only [parse_section, h1, h2, h3, h4, h7, h8, h9, h10, if_true, if_neg h5]

/-- Unwind path of parse_section: a header whose marker count is at most
the current nesting depth sets the pending return signal and fails with
the cursor reverted. -/
theorem parse_section_signal (f : Nat) (s : Parser) (size n : Nat)
    (s₁ s₂ s₃ s₄ : Parser) {em e : ParseError}
    (h1 : seek_whitespace f s = s₁)
    (h2 : check_special s₁ HASH = true)
    (h3 : hash_loop f s₁ 1 = (size, s₂))
    (h4 : parse_inline_metadata f s₂ = (.error em, s₃))
    (hn : s₃.section_nesting = n)
    (h5 : size ≤ n)
    (h6 : revert_with_error { s₃ with section_return := some size } s.index = (e, s₄)) :
    parse_section (f+1) s = (.error e, s₄) := by
  subst hn
  simp only [parse_section, h1, h2, h3, h4, h6, if_true, if_pos (Or.inl h5), if_pos h5]

/-- parse_block when the entry signal names an enclosing depth. -/
theorem parse_block_invalid (f : Nat) (s : Parser) (v n : Nat)
    (h0 : s.section_return = some v)
    (hn : s.section_nesting = n)
    (h1 : v ≤ n ∧ 0 < n) :
    parse_block (f+1) s =
      (.error (ParseError.mk s.index (some "invalid section nesting")), s) := by
  subst hn
  simp only [parse_block, h0, if_pos h1]

/-- parse_block when the entry signal is stale and gets cleared. -/
theorem parse_block_clear (f : Nat) (s : Parser) (v n : Nat)
    (h0 : s.section_return = some v)
    (hn : s.section_nesting = n)
    (h1 : ¬ (v ≤ n ∧ 0 < n)) :
    parse_block (f+1) s = parse_block (f+1) { s with section_return := none } := by
  subst hn
  conv_lhs => rw [parse_block]
  conv_rhs => rw [parse_block]
  simp only [h0, if_neg h1]

/-- parse_block when the section alternative succeeds. -/
theorem parse_block_sec (f : Nat) (s : Parser) {s₁ : Parser} {sect : Sect}
    (h0 : s.section_return = none)
    (h1 : parse_section f s = (.ok sect, s₁)) :
    parse_block (f+1) s = (.ok (Block.sec sect), s₁) := by
  simp only [parse_block, h0, h1]

/-- parse_block when the section attempt failed with the signal set: the
remaining alternatives are skipped. -/
theorem parse_block_sig (f : Nat) (s : Parser) (v : Nat) {s₁ : Parser} {e : ParseError}
    (h0 : s.section_return = none)
    (h1 : parse_section f s = (.error e, s₁))
    (h2 : s₁.section_return = some v) :
    parse_block (f+1) s = (.error (ParseError.mk s₁.index none), s₁) := by
  simp only [parse_block, h0, h1, h2, Option.isSome_some, if_true]

/-- parse_block when every alternative fails without a signal. -/
theorem parse_block_allfail (f : Nat) (s : Parser)
    (s₁ s₂ s₃ s₄ s₅ s₆ s₇ s₈ : Parser)
    {e₁ e₂ e₃ e₄ e₅ e₆ e₇ e₈ : ParseError}
    (h0 : s.section_return = none)
    (h1 : parse_section f s = (.error e₁, s₁))
    (h1b : s₁.section_return = none)
    (h2 : parse_list f s₁ = (.error e₂, s₂))
    (h3 : parse_table f s₂ = (.error e₃, s₃))
    (h4 : parse_code_block f s₃ = (.error e₄, s₄))
    (h5 : parse_quote f s₄ = (.error e₅, s₅))
    (h6 : parse_import f s₅ = (.error e₆, s₆))
    (h6b : s₆.section_return = none)
    (h7 : parse_placeholder f s₆ = (.error e₇, s₇))
    (h8 : parse_paragraph f s₇ = (.error e₈, s₈)) :
    parse_block (f+1) s = (.error (ParseError.mk s₈.index none), s₈) := by
  simp [parse_block, h0, h1, h1b, h2, h3, h4, h5, h6, h6b, h7, h8]

/-- One successful iteration of the child-block loop of parse_section. -/
theorem sbl_step (f : Nat) (s : Parser) (sect : Sect) {s₁ : Parser} {b : Block}
    (h : parse_block f s = (.ok b, s₁)) :
    section_block_loop (f+1) s sect = section_block_loop f s₁ (sect.add_element b) := by
  simp only [section_block_loop, h]

/-- Termination of the child-block loop of parse_section. -/
theorem sbl_end (f : Nat) (s : Parser) (sect : Sect) {s₁ : Parser} {e : ParseError}
    (h : parse_block f s = (.error e, s₁)) :
    section_block_loop (f+1) s sect = (sect, s₁) := by
  simp only [section_block_loop, h]

/-- One successful iteration of the top-level block loop of parse. -/
theorem parse_loop_step (f : Nat) (s : Parser) (i L : Nat) {s₁ : Parser} {b : Block}
    (hi : s.index = i) (hL : s.text.length = L) (hiL : i < L)
    (hb : parse_block f s = (.ok b, s₁)) :
    parse_loop (f+1) s = parse_loop f { s₁ with document := s₁.document.add_element b } := by
  subst hi hL
  simp only [parse_loop, hb, if_pos hiL]

/-- Termination of the top-level block loop at the end of input. -/
theorem parse_loop_end (f : Nat) (s : Parser) (i L : Nat)
    (hi : s.index = i) (hL : s.text.length = L) (hiL : ¬ i < L) :
    parse_loop (f+1) s = s := by
  subst hi hL
  simp only [parse_loop, if_neg hiL]

/-- The document returned by parse is the placeholder-processed document
of the state the block loop ends in (root parser). -/
theorem parse_eq (f : Nat) (s : Parser) {s₁ : Parser}
    (h1 : parse_loop f { s with document := s.document.set_path s.path } = s₁)
    (h2 : s₁.is_child = false) :
    (parse f s).1 = process_placeholders s₁.document := by
  simp [parse, h1, h2]

/-- One continuing iteration of the pair loop of parse_inline_metadata. -/
theorem pim_loop_step (f : Nat) (s : Parser) (values : List KV)
    {s₁ : Parser} {k : List Char} {v : MetadataValue}
    (h : parse_metadata_pair f s = (.ok (k, v), s₁))
    (hstop : (check_special s₁ META_CLOSE || check_linebreak s₁) = false) :
    pim_loop (f+1) s values = pim_loop f s₁ (insertKV values k v) := by
  simp [pim_loop, h, hstop]

/-- Final iteration of the pair loop of parse_inline_metadata: the next
character is the closing bracket or a linebreak. -/
theorem pim_loop_stop (f : Nat) (s : Parser) (values : List KV)
    {s₁ : Parser} {k : List Char} {v : MetadataValue}
    (h : parse_metadata_pair f s = (.ok (k, v), s₁))
    (hstop : (check_special s₁ META_CLOSE || check_linebreak s₁) = true) :
    pim_loop (f+1) s values = (insertKV values k v, s₁) := by
  simp [pim_loop, h, hstop]

/-- Success path of parse_inline_metadata with a closing bracket. -/
theorem parse_inline_metadata_ok (f : Nat) (s : Parser) (s₂ s₃ s₄ : Parser)
    (values : List KV)
    (h0 : check_special s META_OPEN = true)
    (h1 : skip_char s = s₂)
    (h2 : pim_loop f s₂ [] = (values, s₃))
    (h3 : check_special s₃ META_CLOSE = true)
    (h4 : skip_char s₃ = s₄)
    (h5 : ¬ values.length = 0) :
    parse_inline_metadata (f+1) s = (.ok (InlineMetadata.mk values), s₄) := by
  simp [parse_inline_metadata, assert_special, h0, h1, h2, h3, h4, h5]

/-- One successful iteration of the data-row loop of parse_table. -/
theorem trl_step (f : Nat) (s : Parser) (t : Table) {s₁ : Parser} {r : Row}
    (h : parse_row f s = (.ok r, s₁)) :
    table_row_loop (f+1) s t = table_row_loop f s₁ (t.add_row r) := by
  show (match parse_row f s with
        | (.error _, s') => (t, s')
        | (.ok r, s') => table_row_loop f s' (t.add_row r)) = _
  rw [h]

/-- Termination of the data-row loop of parse_table. -/
theorem trl_end (f : Nat) (s : Parser) (t : Table) {s₁ : Parser} {e : ParseError}
    (h : parse_row f s = (.error e, s₁)) :
    table_row_loop (f+1) s t = (t, s₁) := by
  show (match parse_row f s with
        | (.error _, s') => (t, s')
        | (.ok r, s') => table_row_loop f s' (t.add_row r)) = _
  rw [h]

/-- parse_table when the separator scan accepts the following line
(parse_table hands its own fuel to every sub-parser unchanged). -/
theorem parse_table_rows (f : Nat) (s : Parser) (s₁ s₃ s₄ : Parser) (header : Row)
    {t : Table} {s₅ : Parser}
    (h1 : parse_row f s = (.ok header, s₁))
    (h2 : check_linebreak s₁ = false)
    (h3 : table_sep_loop f s₁ = s₃)
    (h4 : check_linebreak s₃ = true)
    (h5 : seek_whitespace f s₃ = s₄)
    (h6 : table_row_loop f s₄ (Table.mk header []) = (t, s₅)) :
    parse_table f s = (.ok t, s₅) := by
  show ((match parse_row f s with
    | (Except.error e, sa) => (Except.error e, sa)
    | (Except.ok hd, sa) =>
      let sb := if check_linebreak sa then skip_char sa else sa
      let seek := sb.index
      let table := Table.mk hd []
      let sc := table_sep_loop f sb
      if !(check_linebreak sc) then
        match revert_to sc seek with
        | (Except.error e, sd) => (Except.error e, sd)
        | (Except.ok _, sd) => (Except.ok table, sd)
      else
        let sd := seek_whitespace f sc
        let (table, se) := table_row_loop f sd table
        (Except.ok table, se) : Except ParseError Table × Parser))
    = (Except.ok t, s₅)
  rw [h1]
  simp [h2, h3, h4, h5, h6]

/-! ## C1 — concrete run on the four nested headers -/

def c1_input : List Char :=
  ['#', SPACE, 'A', LB, '#', '#', SPACE, 'B', LB, '#', '#', SPACE, 'C', LB,
   '#', SPACE, 'D']

def c1_s0 : Parser := Parser.new c1_input none []

/-- Parser states reached while parsing the C1 input, as offsets from the
initial state (the document is kept generic: no production below touches
it). -/
def c1_st (i : Nat) (c : Char) (n : Nat) (secs : List Nat) (r : Option Nat)
    (d : Document) : Parser :=
  { c1_s0 with index := i, currentChar := c, section_nesting := n, sections := secs, section_return := r, document := d }

def c1_hd (sz : Nat) (c : Char) : Header :=
  Header.mk sz (Line.text (TextLine.mk [[c]])) [c]

def c1_sectB : Sect := Sect.mk (c1_hd 2 'B') none []
def c1_sectC : Sect := Sect.mk (c1_hd 2 'C') none []
def c1_sectA : Sect := Sect.mk (c1_hd 1 'A') none [Block.sec c1_sectB, Block.sec c1_sectC]
def c1_sectD : Sect := Sect.mk (c1_hd 1 'D') none []
def c1_d0 : Document := Document.mk none true [] []
def c1_dA : Document := Document.mk none true [Block.sec c1_sectA] []
def c1_dAD : Document := Document.mk none true [Block.sec c1_sectA, Block.sec c1_sectD] []

theorem c1_secCsig (d : Document) :
    parse_section 292 (c1_st 9 '#' 2 [1, 2] none d)
      = (.error (ParseError.mk 11 none), c1_st 9 '#' 2 [1, 2] (some 2) d) :=
  parse_section_signal 291 (c1_st 9 '#' 2 [1, 2] none d) 2 2
    (c1_st 9 '#' 2 [1, 2] none d) (c1_st 11 ' ' 2 [1, 2] none d)
    (c1_st 11 ' ' 2 [1, 2] none d) (c1_st 9 '#' 2 [1, 2] (some 2) d)
    rfl rfl rfl rfl rfl (by decide) rfl

theorem c1_sblB (d : Document) :
    section_block_loop 294 (c1_st 9 '#' 2 [1, 2] none d) (Sect.mk (c1_hd 2 'B') none [])
      = (c1_sectB, c1_st 9 '#' 2 [1, 2] (some 2) d) :=
  sbl_end 293 _ _ (parse_block_sig 292 _ 2 rfl (c1_secCsig d) rfl)

theorem c1_secB (d : Document) :
    parse_section 295 (c1_st 4 '#' 1 [1] none d)
      = (.ok c1_sectB, c1_st 9 '#' 1 [1] (some 2) d) :=
  parse_section_ok 294 (c1_st 4 '#' 1 [1] none d) 2 1 ' '
    (c1_st 4 '#' 1 [1] none d) (c1_st 6 ' ' 1 [1] none d)
    (c1_st 6 ' ' 1 [1] none d) (c1_st 7 'B' 1 [1] none d)
    (c1_st 9 '#' 1 [1] none d) (c1_st 9 '#' 2 [1, 2] none d)
    (c1_st 9 '#' 2 [1, 2] (some 2) d) (c1_hd 0 'B')
    rfl rfl rfl rfl rfl rfl (by decide) rfl rfl rfl (c1_sblB d)

theorem c1_pbB (d : Document) :
    parse_block 296 (c1_st 4 '#' 1 [1] none d)
      = (.ok (Block.sec c1_sectB), c1_st 9 '#' 1 [1] (some 2) d) :=
  parse_block_sec 295 _ rfl (c1_secB d)

theorem c1_secDsig (d : Document) :
    parse_section 291 (c1_st 14 '#' 2 [1, 2] none d)
      = (.error (ParseError.mk 15 none), c1_st 14 '#' 2 [1, 2] (some 1) d) :=
  parse_section_signal 290 (c1_st 14 '#' 2 [1, 2] none d) 1 2
    (c1_st 14 '#' 2 [1, 2] none d) (c1_st 15 ' ' 2 [1, 2] none d)
    (c1_st 15 ' ' 2 [1, 2] none d) (c1_st 14 '#' 2 [1, 2] (some 1) d)
    rfl rfl rfl rfl rfl (by decide) rfl

theorem c1_sblC (d : Document) :
    section_block_loop 293 (c1_st 14 '#' 2 [1, 2] none d) (Sect.mk (c1_hd 2 'C') none [])
      = (c1_sectC, c1_st 14 '#' 2 [1, 2] (some 1) d) :=
  sbl_end 292 _ _ (parse_block_sig 291 _ 1 rfl (c1_secDsig d) rfl)

theorem c1_secC (d : Document) :
    parse_section 294 (c1_st 9 '#' 1 [1] none d)
      = (.ok c1_sectC, c1_st 14 '#' 1 [1] (some 1) d) :=
  parse_section_ok 293 (c1_st 9 '#' 1 [1] none d) 2 1 ' '
    (c1_st 9 '#' 1 [1] none d) (c1_st 11 ' ' 1 [1] none d)
    (c1_st 11 ' ' 1 [1] none d) (c1_st 12 'C' 1 [1] none d)
    (c1_st 14 '#' 1 [1] none d) (c1_st 14 '#' 2 [1, 2] none d)
    (c1_st 14 '#' 2 [1, 2] (some 1) d) (c1_hd 0 'C')
    rfl rfl rfl rfl rfl rfl (by decide) rfl rfl rfl (c1_sblC d)

theorem c1_pbC (d : Document) :
    parse_block 295 (c1_st 9 '#' 1 [1] (some 2) d)
      = (.ok (Block.sec c1_sectC), c1_st 14 '#' 1 [1] (some 1) d) :=
  (parse_block_clear 294 _ 2 1 rfl rfl (by decide)).trans
    (parse_block_sec 294 _ rfl (c1_secC d))

theorem c1_pbInv (d : Document) :
    parse_block 294 (c1_st 14 '#' 1 [1] (some 1) d)
      = (.error (ParseError.mk 14 (some "invalid section nesting")),
         c1_st 14 '#' 1 [1] (some 1) d) :=
  parse_block_invalid 293 _ 1 1 rfl rfl (by decide)

theorem c1_sblA (d : Document) :
    section_block_loop 297 (c1_st 4 '#' 1 [1] none d) (Sect.mk (c1_hd 1 'A') none [])
      = (c1_sectA, c1_st 14 '#' 1 [1] (some 1) d) :=
  (sbl_step 296 _ _ (c1_pbB d)).trans
    ((sbl_step 295 _ _ (c1_pbC d)).trans (sbl_end 294 _ _ (c1_pbInv d)))

theorem c1_secA (d : Document) :
    parse_section 298 (c1_st 0 '#' 0 [] none d)
      = (.ok c1_sectA, c1_st 14 '#' 0 [] (some 1) d) :=
  parse_section_ok 297 (c1_st 0 '#' 0 [] none d) 1 0 ' '
    (c1_st 0 '#' 0 [] none d) (c1_st 1 ' ' 0 [] none d)
    (c1_st 1 ' ' 0 [] none d) (c1_st 2 'A' 0 [] none d)
    (c1_st 4 '#' 0 [] none d) (c1_st 4 '#' 1 [1] none d)
    (c1_st 14 '#' 1 [1] (some 1) d) (c1_hd 0 'A')
    rfl rfl rfl rfl rfl rfl (by decide) rfl rfl rfl (c1_sblA d)

theorem c1_pbA (d : Document) :
    parse_block 299 (c1_st 0 '#' 0 [] none d)
      = (.ok (Block.sec c1_sectA), c1_st 14 '#' 0 [] (some 1) d) :=
  parse_block_sec 298 _ rfl (c1_secA d)

theorem c1_eofSec (d : Document) :
    parse_section 294 (c1_st 20 LB 1 [1] none d)
      = (.error (ParseError.mk 20 none), c1_st 21 LB 1 [1] none d) := rfl

theorem c1_eofList (d : Document) :
    parse_list 294 (c1_st 21 LB 1 [1] none d)
      = (.error (ParseError.mk 21 none), c1_st 22 LB 1 [1] none d) := rfl

theorem c1_eofTable (d : Document) :
    parse_table 294 (c1_st 22 LB 1 [1] none d)
      = (.error (ParseError.mk 22 none), c1_st 22 LB 1 [1] none d) := rfl

theorem c1_eofCode (d : Document) :
    parse_code_block 294 (c1_st 22 LB 1 [1] none d)
      = (.error (ParseError.mk 23 none), c1_st 23 LB 1 [1] none d) := rfl

theorem c1_eofQuote (d : Document) :
    parse_quote 294 (c1_st 23 LB 1 [1] none d)
      = (.error (ParseError.mk 23 none), c1_st 24 LB 1 [1] none d) := rfl

theorem c1_eofImp (d : Document) :
    parse_import 294 (c1_st 24 LB 1 [1] none d)
      = (.error (ParseError.mk 24 none), c1_st 25 LB 1 [1] none d) := rfl

theorem c1_eofPh (d : Document) :
    parse_placeholder 294 (c1_st 25 LB 1 [1] none d)
      = (.error (ParseError.mk 25 none), c1_st 25 LB 1 [1] none d) := rfl

theorem c1_eofPar (d : Document) :
    parse_paragraph 294 (c1_st 25 LB 1 [1] none d)
      = (.error (ParseError.mk 26 none), c1_st 26 LB 1 [1] none d) := rfl

theorem c1_pbEof (d : Document) :
    parse_block 295 (c1_st 20 LB 1 [1] none d)
      = (.error (ParseError.mk 26 none), c1_st 26 LB 1 [1] none d) :=
  parse_block_allfail 294 (c1_st 20 LB 1 [1] none d)
    (c1_st 21 LB 1 [1] none d) (c1_st 22 LB 1 [1] none d)
    (c1_st 22 LB 1 [1] none d) (c1_st 23 LB 1 [1] none d)
    (c1_st 24 LB 1 [1] none d) (c1_st 25 LB 1 [1] none d)
    (c1_st 25 LB 1 [1] none d) (c1_st 26 LB 1 [1] none d)
    rfl (c1_eofSec d) rfl (c1_eofList d) (c1_eofTable d)
    (c1_eofCode d) (c1_eofQuote d) (c1_eofImp d) rfl (c1_eofPh d) (c1_eofPar d)

theorem c1_sblD (d : Document) :
    section_block_loop 296 (c1_st 20 LB 1 [1] none d) (Sect.mk (c1_hd 1 'D') none [])
      = (c1_sectD, c1_st 26 LB 1 [1] none d) :=
  sbl_end 295 _ _ (c1_pbEof d)

theorem c1_secD (d : Document) :
    parse_section 297 (c1_st 14 '#' 0 [] none d)
      = (.ok c1_sectD, c1_st 26 LB 0 [] none d) :=
  parse_section_ok 296 (c1_st 14 '#' 0 [] none d) 1 0 ' '
    (c1_st 14 '#' 0 [] none d) (c1_st 15 ' ' 0 [] none d)
    (c1_st 15 ' ' 0 [] none d) (c1_st 16 'D' 0 [] none d)
    (c1_st 18 SPACE 0 [] none d) (c1_st 20 LB 1 [1] none d)
    (c1_st 26 LB 1 [1] none d) (c1_hd 0 'D')
    rfl rfl rfl rfl rfl rfl (by decide) rfl rfl rfl (c1_sblD d)

theorem c1_pbD (d : Document) :
    parse_block 298 (c1_st 14 '#' 0 [] (some 1) d)
      = (.ok (Block.sec c1_sectD), c1_st 26 LB 0 [] none d) :=
  (parse_block_clear 297 _ 1 0 rfl rfl (by decide)).trans
    (parse_block_sec 297 _ rfl (c1_secD d))

theorem c1_pl :
    parse_loop 300 (c1_st 0 '#' 0 [] none c1_d0) = c1_st 26 LB 0 [] none c1_dAD :=
  (parse_loop_step 299 (c1_st 0 '#' 0 [] none c1_d0) 0 20 rfl rfl (by decide)
      (c1_pbA c1_d0)).trans
    ((parse_loop_step 298 (c1_st 14 '#' 0 [] (some 1) c1_dA) 14 20 rfl rfl (by decide)
        (c1_pbD c1_dA)).trans
      (parse_loop_end 297 (c1_st 26 LB 0 [] none c1_dAD) 26 20 rfl rfl (by decide)))

theorem c1_parse_doc : (parse 300 c1_s0).1 = c1_dAD :=
  (parse_eq 300 c1_s0 c1_pl rfl).trans rfl

/-- The parser state in the middle of the C1 input: positioned at a
depth-1 header while two sections of depths 1 and 2 are open. -/
def c1_mid : Parser :=
  { Parser.new "# D".data none [] with section_nesting := 2, sections := [1, 2] }

/-! ## C5 — concrete run on the metadata example -/

def c5_input : List Char :=
  [META_OPEN] ++ "count=3 active ratio=1.5 label=".data ++
    [DOUBLE_QUOTE] ++ "x y".data ++ [DOUBLE_QUOTE, META_CLOSE]

def c5_s0 : Parser := Parser.new c5_input none []

def c5_st (i : Nat) (c : Char) : Parser :=
  { c5_s0 with index := i, currentChar := c }

def c5_kv1 : KV := KV.mk "count".data (MetadataValue.integer 3)
def c5_kv2 : KV := KV.mk "active".data (MetadataValue.bool true)

/-- The rational number produced by parse_f64 on the characters 1.5, in
the unreduced shape the parser builds it in (the reduced form 3/2 is
recovered propositionally, since rational normalisation does not compute
definitionally). -/
def c5_ratio : Rat :=
  1 * (((digits_val ['1'] : Nat) : Rat) + ((digits_val ['5'] : Nat) : Rat) / (10 : Rat) ^ 1)

def c5_kv3 : KV := KV.mk "ratio".data (MetadataValue.float c5_ratio)
def c5_kv4 : KV := KV.mk "label".data (MetadataValue.str "x y".data)

theorem c5_pair1 :
    parse_metadata_pair 198 (c5_st 1 'c')
      = (.ok ("count".data, MetadataValue.integer 3), c5_st 8 ' ') := rfl

theorem c5_pair2 :
    parse_metadata_pair 197 (c5_st 8 ' ')
      = (.ok ("active".data, MetadataValue.bool true), c5_st 16 'r') := rfl

theorem c5_pair3 :
    parse_metadata_pair 196 (c5_st 16 'r')
      = (.ok ("ratio".data, MetadataValue.float c5_ratio), c5_st 25 ' ') := rfl

theorem c5_ratio_eq : c5_ratio = 3 / 2 := by
  have h1 : digits_val ['1'] = 1 := rfl
  have h5 : digits_val ['5'] = 5 := rfl
  unfold c5_ratio
  rw [h1, h5]
  norm_num

theorem c5_pair4 :
    parse_metadata_pair 195 (c5_st 25 ' ')
      = (.ok ("label".data, MetadataValue.str "x y".data), c5_st 37 META_CLOSE) := rfl

theorem c5_loop :
    pim_loop 199 (c5_st 1 'c') [] = ([c5_kv1, c5_kv2, c5_kv3, c5_kv4], c5_st 37 META_CLOSE) :=
  (pim_loop_step 198 (c5_st 1 'c') [] c5_pair1 rfl).trans
    ((pim_loop_step 197 (c5_st 8 ' ') [c5_kv1] c5_pair2 rfl).trans
      ((pim_loop_step 196 (c5_st 16 'r') [c5_kv1, c5_kv2] c5_pair3 rfl).trans
        (pim_loop_stop 195 (c5_st 25 ' ') [c5_kv1, c5_kv2, c5_kv3] c5_pair4 rfl)))

theorem c5_meta :
    parse_inline_metadata 200 c5_s0
      = (.ok (InlineMetadata.mk [c5_kv1, c5_kv2, c5_kv3, c5_kv4]), c5_st 38 LB) :=
  parse_inline_metadata_ok 199 c5_s0 (c5_st 1 'c') (c5_st 37 META_CLOSE) (c5_st 38 LB)
    [c5_kv1, c5_kv2, c5_kv3, c5_kv4] rfl rfl c5_loop rfl rfl (by decide)

/-! ## C7 — concrete run on the table with a bogus separator line -/

def c7_s0 : Parser := Parser.new "|h|\nz-\n|d|\n".data none []

def c7_st (i : Nat) (c : Char) : Parser :=
  { c7_s0 with index := i, currentChar := c }

def c7_rowH : Row := Row.mk [Cell.mk (Line.text (TextLine.mk [['h']]))]
def c7_rowD : Row := Row.mk [Cell.mk (Line.text (TextLine.mk [['d']]))]

theorem c7_row1 : parse_row 300 c7_s0 = (.ok c7_rowH, c7_st 4 'z') := rfl

theorem c7_row2 : parse_row 299 (c7_st 7 '|') = (.ok c7_rowD, c7_st 11 LB) := rfl

theorem c7_row3 :
    parse_row 298 (c7_st 11 LB) = (.error (ParseError.mk 11 none), c7_st 11 LB) := rfl

theorem c7_trl :
    table_row_loop 300 (c7_st 7 '|') (Table.mk c7_rowH [])
      = (Table.mk c7_rowH [c7_rowD], c7_st 11 LB) :=
  (trl_step 299 (c7_st 7 '|') (Table.mk c7_rowH []) c7_row2).trans
    (trl_end 298 (c7_st 11 LB) (Table.mk c7_rowH [c7_rowD]) c7_row3)

theorem c7_table :
    parse_table 300 c7_s0 = (.ok (Table.mk c7_rowH [c7_rowD]), c7_st 11 LB) :=
  parse_table_rows 300 c7_s0 (c7_st 4 'z') (c7_st 6 LB) (c7_st 7 '|') c7_rowH
    c7_row1 rfl rfl rfl rfl c7_trl


/-! ## Claim theorems -/

/-- Claim C1: parsing the four header lines yields two top-level sections,
the first (A) containing B and C as child sections and D as a sibling of
A; and a header whose marker count (1) is at most the current nesting
depth (2, with depth positive) makes parse_section set the pending
section-return signal to that count and fail with the cursor back at the
header, so every enclosing frame unwinds without consuming it. -/
theorem c1_section_nesting :
    (parse 300 c1_s0).1.elements
      = [Block.sec (Sect.mk (c1_hd 1 'A') none
           [Block.sec (Sect.mk (c1_hd 2 'B') none []),
            Block.sec (Sect.mk (c1_hd 2 'C') none [])]),
         Block.sec (Sect.mk (c1_hd 1 'D') none [])]
    ∧ (parse_section 300 c1_mid).1 = .error (ParseError.mk 1 none)
    ∧ (parse_section 300 c1_mid).2.index = 0
    ∧ (parse_section 300 c1_mid).2.section_return = some 1 := by
  refine ⟨?_, rfl, rfl, rfl⟩
  rw [c1_parse_doc]
  rfl

def c2_s0 : Parser := Parser.new "<[x]\n".data none []

/-- Claim C2 (refuted): parse_import entered at index 0 on an import
directive whose target file does not exist returns an error with the
cursor left at index 8 (after the directive and the following
whitespace), not restored to the entry index — the failure path after
the resolution of the target has no revert. -/
theorem c2_import_cursor_not_restored :
    c2_s0.index = 0
    ∧ (parse_import 200 c2_s0).1 = .error (ParseError.mk 8 none)
    ∧ (parse_import 200 c2_s0).2.index = 8 :=
  ⟨rfl, rfl, rfl⟩

def c3_a : ListItem := ListItem.mk (Line.text (TextLine.mk [['a']])) 2 false []
def c3_b : ListItem := ListItem.mk (Line.text (TextLine.mk [['b']])) 1 false []

/-- Claim C3 (refuted): in the flat item sequence a (level 2) then b
(level 1), item a has no preceding strictly-smaller-level item, so under
the canonical contract both items are roots; the unwind loop instead
attaches the earlier, deeper item a as a child of the later, shallower
item b. -/
theorem c3_list_unwind_misattach :
    build_list_items [c3_a, c3_b]
      = [ListItem.mk (Line.text (TextLine.mk [['b']])) 1 false [c3_a]] := rfl

def c4_input : List Char := [META_OPEN, 'a', EQ, '1', LB, 'x']
def c4_s0 : Parser := Parser.new c4_input none []

/-- Claim C4 (refuted): on metadata that reaches a linebreak before any
closing bracket, parse_inline_metadata still returns a successful
InlineMetadata holding the one accumulated pair, with the cursor left on
the linebreak (index 4) — unterminated metadata is returned as metadata
whenever at least one pair was read. -/
theorem c4_unterminated_metadata_success :
    (parse_inline_metadata 200 c4_s0).1
      = .ok (InlineMetadata.mk [KV.mk ['a'] (MetadataValue.integer 1)])
    ∧ (parse_inline_metadata 200 c4_s0).2.index = 4 :=
  ⟨rfl, rfl⟩

def c5b_s0 : Parser := Parser.new "flag=TRUE\x7d".data none []
def c5c_s0 : Parser := Parser.new "v=12abc\x7d".data none []

/-- Claim C5: the metadata example parses to count=Integer(3),
active=Bool(true), ratio=Float(3/2), label=String("x y"); a
case-insensitive boolean literal is coerced before the numeric attempts;
and a bare token that is neither boolean nor numeric falls back to a
string. -/
theorem c5_metadata_coercion :
    (parse_inline_metadata 200 c5_s0).1
      = .ok (InlineMetadata.mk
          [KV.mk "count".data (MetadataValue.integer 3),
           KV.mk "active".data (MetadataValue.bool true),
           KV.mk "ratio".data (MetadataValue.float (3 / 2)),
           KV.mk "label".data (MetadataValue.str "x y".data)])
    ∧ (parse_metadata_pair 200 c5b_s0).1 = .ok ("flag".data, MetadataValue.bool true)
    ∧ (parse_metadata_pair 200 c5c_s0).1 = .ok ("v".data, MetadataValue.str "12abc".data) := by
  refine ⟨?_, rfl, rfl⟩
  rw [c5_meta]
  simp [c5_kv1, c5_kv2, c5_kv3, c5_kv4, c5_ratio_eq]

/-- Claim C6: when the resolved path names an existing file,
import_document fails with the "cyclic import" error exactly when that
path is already in the visited-path registry, and otherwise succeeds and
appends the path to the registry (the sequential model makes the
check-and-append one atomic step). -/
theorem c6_import_registry (s : Parser) (p : List Char)
    (h : transform_path s p ∈ s.fs) :
    ((import_document s p).1
        = .error (ParseError.mk s.index (some "cyclic import"))
      ↔ transform_path s p ∈ s.paths)
    ∧ (transform_path s p ∉ s.paths →
        import_document s p
          = (.ok (ImportAnchor.mk none),
             { s with paths := s.paths ++ [transform_path s p] })) := by
  constructor
  · by_cases hp : transform_path s p ∈ s.paths <;> simp [import_document, h, hp]
  · intro hp
    simp [import_document, h, hp]

def c6_s : Parser :=
  { Parser.new [] (some "/d/m.md".data) [] with fs := ["/d/x.md".data] }
def c6_p : List Char := "/d/x.md".data

/-- Concrete instance of the registry property: importing an existing
absolute path that is not yet registered. -/
theorem c6_import_registry_witness :
    transform_path c6_s c6_p ∈ c6_s.fs
    ∧ (((import_document c6_s c6_p).1
          = .error (ParseError.mk c6_s.index (some "cyclic import"))
        ↔ transform_path c6_s c6_p ∈ c6_s.paths)
      ∧ (transform_path c6_s c6_p ∉ c6_s.paths →
          import_document c6_s c6_p
            = (.ok (ImportAnchor.mk none),
               { c6_s with paths := c6_s.paths ++ [transform_path c6_s c6_p] }))) :=
  ⟨by decide, c6_import_registry c6_s c6_p (by decide)⟩

/-- Claim C7 (refuted): on the input whose second line is z- (not a
dash/pipe separator: it begins with z), the separator scan still accepts
the line because its first character is skipped before any check, so
parse_table returns the header row plus the third line as a data row,
with the cursor at index 11 after that row rather than restored to index
4 after the header. -/
theorem c7_separator_first_char_skipped :
    (parse_table 300 c7_s0).1 = .ok (Table.mk c7_rowH [c7_rowD])
    ∧ (parse_table 300 c7_s0).2.index = 11 :=
  ⟨by rw [c7_table], by rw [c7_table]; rfl⟩

def c8a_s0 : Parser :=
  Parser.new (SQ_CODE_BLOCK ++ LB :: ("a".data ++ SQ_CODE_BLOCK)) none []
def c8b_s0 : Parser :=
  Parser.new (SQ_CODE_BLOCK ++ 't' :: LB :: ('a' :: BACKTICK :: SQ_CODE_BLOCK)) none []
def c8c_s0 : Parser :=
  Parser.new (SQ_CODE_BLOCK ++ ['t'] ++ LB :: ([] ++ SQ_CODE_BLOCK)) none []

/-- Three counterexamples to the unconditional round-trip, one per
hypothesis the amendment adds: an empty language tag makes
parse_code_block fail, a body ending in the fence character comes back
truncated (the backtick is absorbed into the closing fence), and an
empty body makes the block fail because the cursor already stands on the
closing fence when the body read begins. -/
theorem c8_round_trip_counterexample :
    (parse_code_block 300 c8a_s0).1 = .error (ParseError.mk 3 none)
    ∧ (parse_code_block 300 c8b_s0).1 = .ok (CodeBlock.mk ['t'] ['a'])
    ∧ (parse_code_block 300 c8c_s0).1 = .error (ParseError.mk 7 none) :=
  ⟨rfl, rfl, rfl⟩

/-- Claim C10: get_position never returns a position at or past the end
of the content it is given. -/
theorem c10_get_position_none (e : ParseError) (content : List Char)
    (h : content.length ≤ e.index) :
    get_position e content = none := by
  simp [get_position, h]

/-- Concrete instance: index 7 is past the five characters of the
sentinel-extended buffer of the input ab. -/
theorem c10_get_position_none_witness :
    (get_text (Parser.new "ab".data none [])).length ≤ 7
    ∧ get_position (ParseError.mk 7 none) (get_text (Parser.new "ab".data none [])) = none :=
  ⟨by decide,
   c10_get_position_none (ParseError.mk 7 none)
     (get_text (Parser.new "ab".data none [])) (by decide)⟩

/-- Counterexample to the original claim: index 2 is at the end of the
source ab (a sentinel index), yet parse reports errors against the
sentinel-extended buffer, on which get_position yields the position
(0, 2). -/
theorem c10_sentinel_position_counterexample :
    ("ab".data).length ≤ 2
    ∧ get_position (ParseError.mk 2 none) (get_text (Parser.new "ab".data none []))
        = some (0, 2) :=
  ⟨by decide, rfl⟩

/-! ## The code-block round trip (C8)

The universal statement needs symbolic evaluation of the character-state
loops: exact-consumption lemmas for the until-character and until-sequence
string readers, proved by induction on the consumed prefix, with the
fence-window side conditions derived from the amended hypotheses on the
body. -/


theorem css3_nomatch (s : Parser) (c₀ c₁ c₂ : Char) (t : List Char)
    (hd : s.text.drop s.index = c₀ :: c₁ :: c₂ :: t)
    (hc : s.currentChar = c₀)
    (hn : ¬(c₀ = BACKTICK ∧ c₁ = BACKTICK ∧ c₂ = BACKTICK)) :
    check_special_sequence s SQ_CODE_BLOCK = (false, s) := by
  subst hc
  have h0 : s.text[s.index]? = some s.currentChar := by
    have hh := List.head?_drop s.text s.index
    rw [hd] at hh
    simpa using hh.symm
  have h1 : s.text[s.index + 1]? = some c₁ := by
    have hh := List.getElem?_drop s.text s.index 1
    rw [hd] at hh
    simpa using hh.symm
  have h2 : s.text[s.index + 1 + 1]? = some c₂ := by
    have hh := List.getElem?_drop s.text s.index 2
    rw [hd] at hh
    simpa [show s.index + 1 + 1 = s.index + 2 from rfl] using hh.symm
  by_cases e0 : s.currentChar = BACKTICK
  · by_cases e1 : c₁ = BACKTICK
    · have e2 : ¬ c₂ = BACKTICK := fun e2 => hn ⟨e0, e1, e2⟩
      simp [check_special_sequence, css_loop, SQ_CODE_BLOCK, next_char, h0, h1, h2,
        e0, e1, e2, revert_ignore, revert_to]
      rw [← e0]
    · simp [check_special_sequence, css_loop, SQ_CODE_BLOCK, next_char, h0, h1,
        e0, e1, revert_ignore, revert_to]
      rw [← e0]
  · simp [check_special_sequence, css_loop, SQ_CODE_BLOCK, e0, revert_ignore,
      revert_to, h0]

theorem css3_match (s : Parser) (d : Char) (t : List Char)
    (hd : s.text.drop s.index = BACKTICK :: BACKTICK :: BACKTICK :: d :: t)
    (hc : s.currentChar = BACKTICK) :
    check_special_sequence s SQ_CODE_BLOCK
      = (true, { s with index := s.index + 2, currentChar := BACKTICK }) := by
  have h1 : s.text[s.index + 1]? = some BACKTICK := by
    have hh := List.getElem?_drop s.text s.index 1
    rw [hd] at hh
    simpa using hh.symm
  have h2 : s.text[s.index + 1 + 1]? = some BACKTICK := by
    have hh := List.getElem?_drop s.text s.index 2
    rw [hd] at hh
    simpa [show s.index + 1 + 1 = s.index + 2 from rfl] using hh.symm
  have h3 : s.text[s.index + 1 + 1 + 1]? = some d := by
    have hh := List.getElem?_drop s.text s.index 3
    rw [hd] at hh
    simpa [show s.index + 1 + 1 + 1 = s.index + 3 from rfl] using hh.symm
  have e21 : s.index + 1 + 1 = s.index + 2 := rfl
  simp [check_special_sequence, css_loop, SQ_CODE_BLOCK, next_char, h1, h2, h3,
    hc, revert_ignore, revert_to, e21]

theorem fence_nomatch_head (s₁ : Parser) (c : Char) (cs tail : List Char)
    (hd : s₁.text.drop s₁.index = c :: (cs ++ SQ_CODE_BLOCK ++ tail))
    (hc : s₁.currentChar = c)
    (hno : ∀ u, (c :: cs) ++ SQ_CODE_BLOCK ≠ BACKTICK :: BACKTICK :: BACKTICK :: u) :
    check_special_sequence_group s₁ [SQ_CODE_BLOCK] = (false, s₁) := by
  rcases cs with _ | ⟨x₁, cs₂⟩
  · have hn : ¬(c = BACKTICK ∧ BACKTICK = BACKTICK ∧ BACKTICK = BACKTICK) := by
      rintro ⟨e0, -, -⟩
      exact hno [BACKTICK] (by simp [SQ_CODE_BLOCK, e0])
    have hcss := css3_nomatch s₁ c BACKTICK BACKTICK (BACKTICK :: tail)
      (by simpa [SQ_CODE_BLOCK] using hd) hc hn
    simp [check_special_sequence_group, hcss]
  · rcases cs₂ with _ | ⟨x₂, cs₃⟩
    · have hn : ¬(c = BACKTICK ∧ x₁ = BACKTICK ∧ BACKTICK = BACKTICK) := by
        rintro ⟨e0, e1, -⟩
        exact hno [BACKTICK, BACKTICK] (by simp [SQ_CODE_BLOCK, e0, e1])
      have hcss := css3_nomatch s₁ c x₁ BACKTICK (BACKTICK :: BACKTICK :: tail)
        (by simpa [SQ_CODE_BLOCK] using hd) hc hn
      simp [check_special_sequence_group, hcss]
    · have hn : ¬(c = BACKTICK ∧ x₁ = BACKTICK ∧ x₂ = BACKTICK) := by
        rintro ⟨e0, e1, e2⟩
        exact hno (cs₃ ++ SQ_CODE_BLOCK) (by simp [e0, e1, e2])
      have hcss := css3_nomatch s₁ c x₁ x₂ (cs₃ ++ SQ_CODE_BLOCK ++ tail)
        (by simpa using hd) hc hn
      simp [check_special_sequence_group, hcss]

theorem gsu_exact (brk err : List Char) (consumed : List Char) :
    ∀ (fuel : Nat) (s : Parser) (stop : Char) (rest : List Char),
    consumed.length < fuel →
    (∀ x ∈ consumed, x ∉ brk ∧ x ∉ err) →
    stop ∈ brk →
    s.text.drop (s.index + 1) = consumed ++ stop :: rest →
    gsu_loop brk err fuel s
      = (.ok consumed,
         { s with index := s.index + (consumed.length + 1), currentChar := stop }) := by
  induction consumed with
  | nil =>
    intro fuel s stop rest hf hx hstop hd
    cases fuel with
    | zero => exact absurd hf (by simp)
    | succ f =>
      have h1 : s.text[s.index + 1]? = some stop := by
        have hh := List.head?_drop s.text (s.index + 1)
        rw [hd] at hh
        simpa using hh.symm
      simp [gsu_loop, next_char, h1, hstop]
  | cons c cs ih =>
    intro fuel s stop rest hf hx hstop hd
    cases fuel with
    | zero => exact absurd hf (by simp)
    | succ f =>
      have h1 : s.text[s.index + 1]? = some c := by
        have hh := List.head?_drop s.text (s.index + 1)
        rw [hd] at hh
        simpa using hh.symm
      have hcm := hx c (List.mem_cons_self c cs)
      have hd₂ : s.text.drop (s.index + 1 + 1) = cs ++ stop :: rest := by
        have hh : s.text.drop (s.index + 1 + 1)
            = (s.text.drop (s.index + 1)).drop 1 := by
          rw [List.drop_drop]
        rw [hh, hd]
        rfl
      have hrec := ih f { s with index := s.index + 1, currentChar := c } stop rest
        (by simp only [List.length_cons] at hf; omega)
        (fun x hx₂ => hx x (List.mem_cons_of_mem c hx₂))
        hstop
        (by simpa using hd₂)
      have harith : s.index + 1 + (cs.length + 1) = s.index + (cs.length + 1 + 1) := by
        omega
      simp [gsu_loop, next_char, h1, hcm.1, hcm.2, hrec, harith]

theorem gsu_spec (fuel : Nat) (s : Parser) (brk err : List Char) (first : Char)
    (mid : List Char) (stop : Char) (rest : List Char)
    (hcur : s.currentChar = first)
    (hf1 : first ∉ brk) (hf2 : first ∉ err)
    (hx : ∀ x ∈ mid, x ∉ brk ∧ x ∉ err)
    (hstop : stop ∈ brk) (hstope : stop ∉ err)
    (hd : s.text.drop (s.index + 1) = mid ++ stop :: rest)
    (hfuel : mid.length < fuel) :
    get_string_until fuel s brk err
      = (.ok (first :: mid),
         { s with index := s.index + (mid.length + 1), currentChar := stop }) := by
  subst hcur
  have hrec := gsu_exact brk err mid fuel s stop rest hfuel hx hstop hd
  simp [get_string_until, hf1, hf2, hrec, hstope]

theorem gsus_exact (rem : List Char) :
    ∀ (fuel : Nat) (s : Parser) (d : Char) (t : List Char),
    rem.length < fuel →
    (∀ r, r <:+ rem → r ≠ [] →
      ∀ u, r ++ SQ_CODE_BLOCK ≠ BACKTICK :: BACKTICK :: BACKTICK :: u) →
    s.text.drop (s.index + 1) = rem ++ SQ_CODE_BLOCK ++ d :: t →
    gsus_loop [SQ_CODE_BLOCK] [] fuel s
      = (.ok rem,
         { s with index := s.index + (rem.length + 3), currentChar := BACKTICK }) := by
  induction rem with
  | nil =>
    intro fuel s d t hf hwin hd
    cases fuel with
    | zero => exact absurd hf (by simp)
    | succ f =>
      have hd0 : s.text.drop (s.index + 1)
          = BACKTICK :: BACKTICK :: BACKTICK :: d :: t := by
        simpa [SQ_CODE_BLOCK] using hd
      have h1 : s.text[s.index + 1]? = some BACKTICK := by
        have hh := List.head?_drop s.text (s.index + 1)
        rw [hd0] at hh
        simpa using hh.symm
      have hm := css3_match { s with index := s.index + 1, currentChar := BACKTICK }
        d t (by simpa using hd0) rfl
      have harith : s.index + 1 + 2 = s.index + 3 := by omega
      simp [gsus_loop, next_char, h1, check_special_sequence_group, hm, harith]
  | cons c cs ih =>
    intro fuel s d t hf hwin hd
    cases fuel with
    | zero => exact absurd hf (by simp)
    | succ f =>
      have hd1 : s.text.drop (s.index + 1)
          = c :: (cs ++ SQ_CODE_BLOCK ++ d :: t) := by
        simpa using hd
      have h1 : s.text[s.index + 1]? = some c := by
        have hh := List.head?_drop s.text (s.index + 1)
        rw [hd1] at hh
        simpa using hh.symm
      have hng := fence_nomatch_head { s with index := s.index + 1, currentChar := c }
        c cs (d :: t) (by simpa using hd1) rfl
        (hwin (c :: cs) (List.suffix_refl _) (by simp))
      have hd₂ : s.text.drop (s.index + 1 + 1) = cs ++ SQ_CODE_BLOCK ++ d :: t := by
        have hh : s.text.drop (s.index + 1 + 1)
            = (s.text.drop (s.index + 1)).drop 1 := by
          rw [List.drop_drop]
        rw [hh, hd1]
        rfl
      have hrec := ih f { s with index := s.index + 1, currentChar := c } d t
        (by simp only [List.length_cons] at hf; omega)
        (fun r hr hne => hwin r (hr.trans (List.suffix_cons c cs)) hne)
        (by simpa using hd₂)
      have harith : s.index + 1 + (cs.length + 3) = s.index + (cs.length + 1 + 3) := by
        omega
      simp [gsus_loop, next_char, h1, hng, hrec, harith]

theorem gsus_spec (fuel : Nat) (s : Parser) (b : Char) (bd : List Char)
    (d : Char) (t : List Char)
    (hcur : s.currentChar = b)
    (hwin : ∀ r, r <:+ (b :: bd) → r ≠ [] →
      ∀ u, r ++ SQ_CODE_BLOCK ≠ BACKTICK :: BACKTICK :: BACKTICK :: u)
    (hd : s.text.drop s.index = (b :: bd) ++ SQ_CODE_BLOCK ++ d :: t)
    (hfuel : bd.length < fuel) :
    get_string_until_sequence fuel s [SQ_CODE_BLOCK] []
      = (.ok (b :: bd),
         { s with index := s.index + (bd.length + 3), currentChar := BACKTICK }) := by
  subst hcur
  have hng := fence_nomatch_head s s.currentChar bd (d :: t) (by simpa using hd) rfl
    (hwin _ (List.suffix_refl _) (by simp))
  have hd₂ : s.text.drop (s.index + 1) = bd ++ SQ_CODE_BLOCK ++ d :: t := by
    have hh : s.text.drop (s.index + 1) = (s.text.drop s.index).drop 1 := by
      rw [List.drop_drop, Nat.add_comm]
    rw [hh, hd]
    rfl
  have hrec := gsus_exact bd fuel s d t hfuel
    (fun r hr hne => hwin r (hr.trans (List.suffix_cons _ _)) hne) hd₂
  simp [get_string_until_sequence, hng, hrec]

theorem fence_windows (body : List Char)
    (hinf : ¬ SQ_CODE_BLOCK <:+: body)
    (hlast : body.getLast? ≠ some BACKTICK) :
    ∀ r, r <:+ body → r ≠ [] →
      ∀ u, r ++ SQ_CODE_BLOCK ≠ BACKTICK :: BACKTICK :: BACKTICK :: u := by
  intro r hr hne u he
  obtain ⟨p, hp⟩ := hr
  rcases r with _ | ⟨a, r₂⟩
  · exact hne rfl
  rcases r₂ with _ | ⟨b, r₃⟩
  · simp [SQ_CODE_BLOCK] at he
    obtain ⟨ha, -⟩ := he
    refine hlast ?_
    rw [← hp, ha]
    exact List.getLast?_concat p
  rcases r₃ with _ | ⟨c, r₄⟩
  · simp [SQ_CODE_BLOCK] at he
    obtain ⟨ha, hb, -⟩ := he
    refine hlast ?_
    rw [← hp, hb]
    have hsplit : p ++ [a, BACKTICK] = (p ++ [a]) ++ [BACKTICK] := by simp
    rw [hsplit]
    exact List.getLast?_concat _
  · simp [SQ_CODE_BLOCK] at he
    obtain ⟨ha, hb, hc, -⟩ := he
    refine hinf ⟨p, r₄, ?_⟩
    rw [← hp]
    simp [SQ_CODE_BLOCK, ha, hb, hc]


/-- Claim C8 (amended): for every nonempty language tag without a
linebreak and every nonempty body that neither contains the code-fence
sequence nor ends with the fence character, parsing the block formed of
an opening fence, the tag, a linebreak, the body and a closing fence
recovers exactly that tag and body. -/
theorem c8_code_block_roundtrip (tag body : List Char) (fuel : Nat)
    (htag : tag ≠ []) (hlb : LB ∉ tag) (hbody : body ≠ [])
    (hinf : ¬ SQ_CODE_BLOCK <:+: body)
    (hlast : body.getLast? ≠ some BACKTICK)
    (hfuel : tag.length + body.length + 3 ≤ fuel) :
    (parse_code_block fuel (Parser.new
        (SQ_CODE_BLOCK ++ tag ++ LB :: (body ++ SQ_CODE_BLOCK)) none [])).1
      = .ok (CodeBlock.mk tag body) := by
  obtain ⟨a, tg, rfl⟩ := List.exists_cons_of_ne_nil htag
  obtain ⟨b, bd, rfl⟩ := List.exists_cons_of_ne_nil hbody
  have hs0 : Parser.new (SQ_CODE_BLOCK ++ (a :: tg) ++ LB :: ((b :: bd) ++ SQ_CODE_BLOCK)) none []
      = (⟨0, BACKTICK :: BACKTICK :: BACKTICK :: a :: (tg ++ LB :: (b :: (bd ++ BACKTICK :: BACKTICK :: BACKTICK :: LB :: SPACE :: [LB]))), BACKTICK, 0, [], none, none, [], false, [], Document.new true, []⟩ : Parser) := by
    simp [Parser.new, Parser.create, SQ_CODE_BLOCK]
  have hws : BACKTICK.isWhitespace = false := by decide
  have hseek : seek_whitespace fuel (⟨0, BACKTICK :: BACKTICK :: BACKTICK :: a :: (tg ++ LB :: (b :: (bd ++ BACKTICK :: BACKTICK :: BACKTICK :: LB :: SPACE :: [LB]))), BACKTICK, 0, [], none, none, [], false, [], Document.new true, []⟩ : Parser) = (⟨0, BACKTICK :: BACKTICK :: BACKTICK :: a :: (tg ++ LB :: (b :: (bd ++ BACKTICK :: BACKTICK :: BACKTICK :: LB :: SPACE :: [LB]))), BACKTICK, 0, [], none, none, [], false, [], Document.new true, []⟩ : Parser) := by
    simp [seek_whitespace, hws]
  have hcss : check_special_sequence (⟨0, BACKTICK :: BACKTICK :: BACKTICK :: a :: (tg ++ LB :: (b :: (bd ++ BACKTICK :: BACKTICK :: BACKTICK :: LB :: SPACE :: [LB]))), BACKTICK, 0, [], none, none, [], false, [], Document.new true, []⟩ : Parser) SQ_CODE_BLOCK
      = (true, (⟨2, BACKTICK :: BACKTICK :: BACKTICK :: a :: (tg ++ LB :: (b :: (bd ++ BACKTICK :: BACKTICK :: BACKTICK :: LB :: SPACE :: [LB]))), BACKTICK, 0, [], none, none, [], false, [], Document.new true, []⟩ : Parser)) := by
    have h := css3_match (⟨0, BACKTICK :: BACKTICK :: BACKTICK :: a :: (tg ++ LB :: (b :: (bd ++ BACKTICK :: BACKTICK :: BACKTICK :: LB :: SPACE :: [LB]))), BACKTICK, 0, [], none, none, [], false, [], Document.new true, []⟩ : Parser) a (tg ++ LB :: (b :: (bd ++ BACKTICK :: BACKTICK :: BACKTICK :: LB :: SPACE :: [LB]))) rfl rfl
    simpa using h
  have hassert : assert_special_sequence (⟨0, BACKTICK :: BACKTICK :: BACKTICK :: a :: (tg ++ LB :: (b :: (bd ++ BACKTICK :: BACKTICK :: BACKTICK :: LB :: SPACE :: [LB]))), BACKTICK, 0, [], none, none, [], false, [], Document.new true, []⟩ : Parser) SQ_CODE_BLOCK 0
      = (.ok (), (⟨2, BACKTICK :: BACKTICK :: BACKTICK :: a :: (tg ++ LB :: (b :: (bd ++ BACKTICK :: BACKTICK :: BACKTICK :: LB :: SPACE :: [LB]))), BACKTICK, 0, [], none, none, [], false, [], Document.new true, []⟩ : Parser)) := by
    simp [assert_special_sequence, hcss]
  have h3a : (BACKTICK :: BACKTICK :: BACKTICK :: a :: (tg ++ LB :: (b :: (bd ++ BACKTICK :: BACKTICK :: BACKTICK :: LB :: SPACE :: [LB]))) : List Char)[3]? = some a := by
    rw [← List.head?_drop]
    rfl
  have hskip1 : skip_char (⟨2, BACKTICK :: BACKTICK :: BACKTICK :: a :: (tg ++ LB :: (b :: (bd ++ BACKTICK :: BACKTICK :: BACKTICK :: LB :: SPACE :: [LB]))), BACKTICK, 0, [], none, none, [], false, [], Document.new true, []⟩ : Parser) = (⟨3, BACKTICK :: BACKTICK :: BACKTICK :: a :: (tg ++ LB :: (b :: (bd ++ BACKTICK :: BACKTICK :: BACKTICK :: LB :: SPACE :: [LB]))), a, 0, [], none, none, [], false, [], Document.new true, []⟩ : Parser) := by
    simp [skip_char, next_char, h3a]
  have ha1 : a ∉ [LB] := by
    intro hmem
    rw [List.mem_singleton] at hmem
    exact hlb (hmem ▸ List.mem_cons_self a tg)
  have hx : ∀ x ∈ tg, x ∉ [LB] ∧ x ∉ ([] : List Char) := by
    intro x hmem
    refine ⟨fun hx1 => ?_, by simp⟩
    rw [List.mem_singleton] at hx1
    exact hlb (hx1 ▸ List.mem_cons_of_mem a hmem)
  have hflt : tg.length < fuel := by
    simp only [List.length_cons] at hfuel
    omega
  have hgsu : get_string_until fuel (⟨3, BACKTICK :: BACKTICK :: BACKTICK :: a :: (tg ++ LB :: (b :: (bd ++ BACKTICK :: BACKTICK :: BACKTICK :: LB :: SPACE :: [LB]))), a, 0, [], none, none, [], false, [], Document.new true, []⟩ : Parser) [LB] []
      = (.ok (a :: tg), (⟨3 + (tg.length + 1), BACKTICK :: BACKTICK :: BACKTICK :: a :: (tg ++ LB :: (b :: (bd ++ BACKTICK :: BACKTICK :: BACKTICK :: LB :: SPACE :: [LB]))), LB, 0, [], none, none, [], false, [], Document.new true, []⟩ : Parser)) := by
    have h := gsu_spec fuel (⟨3, BACKTICK :: BACKTICK :: BACKTICK :: a :: (tg ++ LB :: (b :: (bd ++ BACKTICK :: BACKTICK :: BACKTICK :: LB :: SPACE :: [LB]))), a, 0, [], none, none, [], false, [], Document.new true, []⟩ : Parser) [LB] [] a tg LB (b :: (bd ++ BACKTICK :: BACKTICK :: BACKTICK :: LB :: SPACE :: [LB]))
      rfl ha1 (by simp) hx (by simp) (by simp) rfl hflt
    simpa using h
  have e1 : 3 + (tg.length + 1) + 1 = 4 + (tg.length + 1) := by omega
  have hd5 : (BACKTICK :: BACKTICK :: BACKTICK :: a :: (tg ++ LB :: (b :: (bd ++ BACKTICK :: BACKTICK :: BACKTICK :: LB :: SPACE :: [LB]))) : List Char).drop (3 + (tg.length + 1) + 1) = b :: (bd ++ BACKTICK :: BACKTICK :: BACKTICK :: LB :: SPACE :: [LB]) := by
    rw [e1, ← List.drop_drop]
    rw [show List.drop 4 (BACKTICK :: BACKTICK :: BACKTICK :: a :: (tg ++ LB :: (b :: (bd ++ BACKTICK :: BACKTICK :: BACKTICK :: LB :: SPACE :: [LB])))) = tg ++ LB :: (b :: (bd ++ BACKTICK :: BACKTICK :: BACKTICK :: LB :: SPACE :: [LB])) from rfl]
    rw [← List.drop_drop]
    rw [List.drop_left]
    rfl
  have hb5 : (BACKTICK :: BACKTICK :: BACKTICK :: a :: (tg ++ LB :: (b :: (bd ++ BACKTICK :: BACKTICK :: BACKTICK :: LB :: SPACE :: [LB]))) : List Char)[3 + (tg.length + 1) + 1]? = some b := by
    rw [← List.head?_drop, hd5]
    rfl
  have hskip2 : skip_char (⟨3 + (tg.length + 1), BACKTICK :: BACKTICK :: BACKTICK :: a :: (tg ++ LB :: (b :: (bd ++ BACKTICK :: BACKTICK :: BACKTICK :: LB :: SPACE :: [LB]))), LB, 0, [], none, none, [], false, [], Document.new true, []⟩ : Parser)
      = (⟨3 + (tg.length + 1) + 1, BACKTICK :: BACKTICK :: BACKTICK :: a :: (tg ++ LB :: (b :: (bd ++ BACKTICK :: BACKTICK :: BACKTICK :: LB :: SPACE :: [LB]))), b, 0, [], none, none, [], false, [], Document.new true, []⟩ : Parser) := by
    simp [skip_char, next_char, hb5]
  have hflb : bd.length < fuel := by
    simp only [List.length_cons] at hfuel
    omega
  have hgsus : get_string_until_sequence fuel (⟨3 + (tg.length + 1) + 1, BACKTICK :: BACKTICK :: BACKTICK :: a :: (tg ++ LB :: (b :: (bd ++ BACKTICK :: BACKTICK :: BACKTICK :: LB :: SPACE :: [LB]))), b, 0, [], none, none, [], false, [], Document.new true, []⟩ : Parser)
      [SQ_CODE_BLOCK] []
      = (.ok (b :: bd), (⟨3 + (tg.length + 1) + 1 + (bd.length + 3), BACKTICK :: BACKTICK :: BACKTICK :: a :: (tg ++ LB :: (b :: (bd ++ BACKTICK :: BACKTICK :: BACKTICK :: LB :: SPACE :: [LB]))), BACKTICK, 0, [], none, none, [], false, [], Document.new true, []⟩ : Parser)) := by
    have h := gsus_spec fuel (⟨3 + (tg.length + 1) + 1, BACKTICK :: BACKTICK :: BACKTICK :: a :: (tg ++ LB :: (b :: (bd ++ BACKTICK :: BACKTICK :: BACKTICK :: LB :: SPACE :: [LB]))), b, 0, [], none, none, [], false, [], Document.new true, []⟩ : Parser) b bd LB [SPACE, LB]
      rfl (fence_windows (b :: bd) hinf hlast) (by simpa [SQ_CODE_BLOCK] using hd5) hflb
    simpa using h
  rw [hs0]
  simp [parse_code_block, hseek, hassert, hskip1, hgsu, hskip2, hgsus]

/-- Concrete instance of the round trip at tag x and body y. -/
theorem c8_code_block_roundtrip_witness :
    (("x".data : List Char) ≠ [] ∧ LB ∉ "x".data ∧ ("y".data : List Char) ≠ []
      ∧ ¬ SQ_CODE_BLOCK <:+: "y".data ∧ ("y".data).getLast? ≠ some BACKTICK
      ∧ ("x".data).length + ("y".data).length + 3 ≤ 300)
    ∧ (parse_code_block 300 (Parser.new
        (SQ_CODE_BLOCK ++ "x".data ++ LB :: ("y".data ++ SQ_CODE_BLOCK)) none [])).1
      = .ok (CodeBlock.mk "x".data "y".data) :=
  ⟨⟨by decide, by decide, by decide, by decide, by decide, by decide⟩,
   c8_code_block_roundtrip "x".data "y".data 300 (by decide) (by decide) (by decide)
     (by decide) (by decide) (by decide)⟩

end MD
